import Mathlib

/-!
# llama_jni.cpp : the JNI bridge between TranslationEngine and llama.cpp

A shallow embedding of `src/app/src/main/cpp/llama_jni.cpp` (the `HAS_LLAMA`
branch): `nativeInit`, `nativeGenerate` and `nativeRelease`.

* The llama.cpp C API (`llama.h`) is an external library.  It is a parameter of
  the embedding: a record `Engine σ` of functions over an arbitrary engine
  state `σ`.  Functions that take a `const llama_vocab *` only (tokenize,
  token-to-piece, end-of-generation test) are functions of the vocabulary and
  do not read or write `σ`.
* Every call of the engine is appended to a log (`Call`), with its arguments
  and its result, in program order.  The log is ghost state: no branch of the
  embedded code reads it.
* `int`, `jint` are `Int`.  The counters stay far from the 32-bit range (the
  cap is 128); `-n_tokens` and `n_ctx - 64` overflow in the source only at
  `n_tokens = INT_MIN` and `n_ctx < INT_MIN + 64`, where the source has no
  defined behaviour.  Pointers that the code tests against `nullptr` are
  `Option`s.
* `char` buffers and `std::string` are `List Char`, one `Char` for one `char`.
-/

namespace LlamaJni

/-! ## Data model -/

/-- A `llama_token` (an `int32_t` vocabulary index). -/
abbrev Token := Int

/-- A non-null `llama_model *`. -/
abbrev ModelRef := Nat

/-- A non-null `llama_context *`. -/
abbrev CtxRef := Nat

/-- A `const llama_vocab *`. -/
abbrev VocabRef := Nat

/-- A `llama_sampler *`. -/
abbrev SamplerRef := Nat

/-- The contents of a `char` buffer or of a `std::string`. -/
abbrev CStr := List Char

/-- The fields of `llama_model_params` that `nativeInit` sets. -/
structure ModelParams where
  n_gpu_layers : Int
  use_mmap : Bool
deriving DecidableEq, Repr

/-- The fields of `llama_context_params` that `nativeInit` sets. -/
structure ContextParams where
  n_ctx : Int
  n_batch : Int
  n_ubatch : Int
  n_threads : Int
  n_threads_batch : Int
deriving DecidableEq, Repr

/-- The `struct LlamaContext` of the source; a `jlong` handle is either 0
(`none`) or the address of one of these (`some w`). -/
structure LlamaContext where
  model : Option ModelRef
  ctx : Option CtxRef
  vocab : VocabRef
  n_ctx : Int
  n_vocab : Int
deriving DecidableEq, Repr

/-- One call of the llama.cpp API, with its arguments and its result. -/
inductive Call where
  | backend_init
  | backend_free
  | model_load_from_file (path : String) (params : ModelParams) (res : Option ModelRef)
  | model_get_vocab (m : ModelRef) (res : Option VocabRef)
  | vocab_n_tokens (v : VocabRef) (res : Int)
  | new_context_with_model (m : ModelRef) (params : ContextParams) (res : Option CtxRef)
  | model_free (m : ModelRef)
  | free (c : CtxRef)
  | tokenize (v : VocabRef) (text : CStr) (cap : Nat) (res : Int)
  | memory_clear (c : CtxRef)
  | decode (c : CtxRef) (batch : List Token) (res : Int)
  | sampler_chain_init (no_perf : Bool) (res : SamplerRef)
  | sampler_init_greedy (res : SamplerRef)
  | sampler_chain_add (chain : SamplerRef) (smpl : SamplerRef)
  | sampler_sample (smpl : SamplerRef) (c : CtxRef) (res : Token)
  | vocab_is_eog (v : VocabRef) (tok : Token) (res : Bool)
  | sampler_accept (smpl : SamplerRef) (tok : Token)
  | token_to_piece (v : VocabRef) (tok : Token) (cap : Nat) (res : Int) (buf : CStr)
  | sampler_free (smpl : SamplerRef)
deriving DecidableEq, Repr

/-- The llama.cpp API and the one JNI call whose result the code tests, as
functions over an engine state `σ`.

* `llama_tokenize v text cap add_special parse_special` returns the status and
  the tokens it wrote at the start of the caller's buffer of `cap` entries.
* `llama_token_to_piece v tok cap lstrip special` returns the status and the
  bytes it wrote at the start of the caller's buffer.
* `GetStringUTFChars` is `none` when the JVM returns `nullptr`. -/
structure Engine (σ : Type) where
  llama_backend_init : σ → σ
  llama_backend_free : σ → σ
  llama_model_load_from_file : σ → String → ModelParams → σ × Option ModelRef
  llama_model_get_vocab : σ → ModelRef → Option VocabRef
  llama_vocab_n_tokens : σ → VocabRef → Int
  llama_new_context_with_model : σ → ModelRef → ContextParams → σ × Option CtxRef
  llama_model_free : σ → ModelRef → σ
  llama_free : σ → CtxRef → σ
  llama_tokenize : VocabRef → CStr → Nat → Bool → Bool → Int × List Token
  llama_memory_clear : σ → CtxRef → σ
  llama_decode : σ → CtxRef → List Token → σ × Int
  llama_sampler_chain_init : σ → Bool → σ × SamplerRef
  llama_sampler_init_greedy : σ → σ × SamplerRef
  llama_sampler_chain_add : σ → SamplerRef → SamplerRef → σ
  llama_sampler_sample : σ → SamplerRef → CtxRef → σ × Token
  llama_vocab_is_eog : VocabRef → Token → Bool
  llama_sampler_accept : σ → SamplerRef → Token → σ
  llama_token_to_piece : VocabRef → Token → Nat → Int → Bool → Int × CStr
  llama_sampler_free : σ → SamplerRef → σ
  GetStringUTFChars : String → Option CStr

variable {σ : Type}

/-! ## nativeInit (lines 38-98) -/

/-- What `nativeInit` leaves behind: the engine state, the calls it made and
the returned handle (`none` is the `jlong` 0). -/
structure InitOutcome (σ : Type) where
  state : σ
  trace : List Call
  handle : Option LlamaContext

/-- `Java_com_arm_translator_TranslationEngine_nativeInit`. -/
def nativeInit (eng : Engine σ) (s : σ) (modelPath : String) (contextSize : Int) :
    InitOutcome σ :=
  -- llama_backend_init();
  let s1 := eng.llama_backend_init s
  let t1 := [Call.backend_init]
  -- model_params.n_gpu_layers = 0; model_params.use_mmap = true;
  let model_params : ModelParams := { n_gpu_layers := 0, use_mmap := true }
  let loaded := eng.llama_model_load_from_file s1 modelPath model_params
  let t2 := t1 ++ [Call.model_load_from_file modelPath model_params loaded.2]
  match loaded.2 with
  | none =>
    -- if (model == nullptr) return 0;
    { state := loaded.1, trace := t2, handle := none }
  | some model =>
    let vocabRes := eng.llama_model_get_vocab loaded.1 model
    let t3 := t2 ++ [Call.model_get_vocab model vocabRes]
    match vocabRes with
    | none =>
      -- if (vocab == nullptr) { llama_model_free(model); return 0; }
      { state := eng.llama_model_free loaded.1 model,
        trace := t3 ++ [Call.model_free model], handle := none }
    | some vocab =>
      let n_vocab := eng.llama_vocab_n_tokens loaded.1 vocab
      let t4 := t3 ++ [Call.vocab_n_tokens vocab n_vocab]
      let ctx_params : ContextParams :=
        { n_ctx := contextSize, n_batch := contextSize, n_ubatch := contextSize,
          n_threads := 4, n_threads_batch := 4 }
      let created := eng.llama_new_context_with_model loaded.1 model ctx_params
      let t5 := t4 ++ [Call.new_context_with_model model ctx_params created.2]
      match created.2 with
      | none =>
        -- if (ctx == nullptr) { llama_model_free(model); return 0; }
        { state := eng.llama_model_free created.1 model,
          trace := t5 ++ [Call.model_free model], handle := none }
      | some ctx =>
        { state := created.1, trace := t5,
          handle := some { model := some model, ctx := some ctx, vocab := vocab,
                           n_ctx := contextSize, n_vocab := n_vocab } }

/-! ## nativeRelease (lines 236-251) -/

/-- What `nativeRelease` leaves behind: the engine state and the calls made. -/
structure ReleaseOutcome (σ : Type) where
  state : σ
  trace : List Call

/-- `Java_com_arm_translator_TranslationEngine_nativeRelease`. -/
def nativeRelease (eng : Engine σ) (s : σ) (handle : Option LlamaContext) :
    ReleaseOutcome σ :=
  -- if (wrapper != nullptr) { ... delete wrapper; }
  let inner : σ × List Call :=
    match handle with
    | none => (s, [])
    | some wrapper =>
      let a : σ × List Call :=
        match wrapper.ctx with
        | some ctx => (eng.llama_free s ctx, [Call.free ctx])
        | none => (s, [])
      match wrapper.model with
      | some model => (eng.llama_model_free a.1 model, a.2 ++ [Call.model_free model])
      | none => a
  -- llama_backend_free();
  { state := eng.llama_backend_free inner.1, trace := inner.2 ++ [Call.backend_free] }

/-! ## nativeGenerate (lines 100-234) -/

/-- The local variables of the generation loop that change from one iteration
to the next, with the engine state and the call log. -/
structure LoopState (σ : Type) where
  state : σ
  trace : List Call
  result : CStr
  n_generated : Int

/-- One pass through the body of the generation loop, lines 183-222: the
state after it, and `false` when the pass ends in a `break`, `true` when
control goes back to the loop test.  `buf` has 256 bytes, the engine is given
`sizeof(buf) - 1 = 255`, and `result.append(buf, len)` adds the first `len`
bytes of the buffer (a `len` above 255 would write past the buffer in the
source; here the bytes the engine wrote are appended). -/
def loopBody (eng : Engine σ) (vocab : VocabRef) (ctx : CtxRef) (smpl : SamplerRef)
    (st : LoopState σ) : LoopState σ × Bool :=
  -- llama_token new_token = llama_sampler_sample(smpl, wrapper->ctx, -1);
  let sampled := eng.llama_sampler_sample st.state smpl ctx
  let new_token := sampled.2
  -- if (llama_vocab_is_eog(wrapper->vocab, new_token)) break;
  let eog := eng.llama_vocab_is_eog vocab new_token
  let t2 := st.trace ++ [Call.sampler_sample smpl ctx new_token,
                         Call.vocab_is_eog vocab new_token eog]
  if eog then
    ({ st with state := sampled.1, trace := t2 }, false)
  else
    -- llama_sampler_accept(smpl, new_token);
    let s2 := eng.llama_sampler_accept sampled.1 smpl new_token
    -- int len = llama_token_to_piece(vocab, new_token, buf, sizeof(buf) - 1, 0, true);
    let piece := eng.llama_token_to_piece vocab new_token 255 0 true
    let len := piece.1
    -- if (len > 0) result.append(buf, len);
    let result := if len > 0 then st.result ++ piece.2.take len.toNat else st.result
    -- decode_result = llama_decode(wrapper->ctx, llama_batch_get_one(&new_token, 1));
    let dec := eng.llama_decode s2 ctx [new_token]
    let t5 := t2 ++ [Call.sampler_accept smpl new_token,
                     Call.token_to_piece vocab new_token 255 len piece.2,
                     Call.decode ctx [new_token] dec.2]
    -- if (decode_result != 0) break;
    if dec.2 ≠ 0 then
      ({ state := dec.1, trace := t5, result := result, n_generated := st.n_generated }, false)
    else
      -- n_generated++;
      let n := st.n_generated + 1
      -- if (result.find('\n') != std::string::npos && n_generated > 3) break;
      if result.contains '\n' && decide (n > 3) then
        ({ state := dec.1, trace := t5, result := result, n_generated := n }, false)
      else
        ({ state := dec.1, trace := t5, result := result, n_generated := n }, true)

/-- The `while (n_generated < actualMax)` loop, lines 182-223: the test, then
one pass through the body, until the test fails or a pass breaks.  Each pass
that does not break counts one token, so `actualMax - n_generated` decreases
and the function is total. -/
def generationLoop (eng : Engine σ) (vocab : VocabRef) (ctx : CtxRef) (smpl : SamplerRef)
    (actualMax : Int) (st : LoopState σ) : LoopState σ :=
  if st.n_generated < actualMax then
    if _hgo : (loopBody eng vocab ctx smpl st).2 = true then
      generationLoop eng vocab ctx smpl actualMax (loopBody eng vocab ctx smpl st).1
    else (loopBody eng vocab ctx smpl st).1
  else st
termination_by (actualMax - st.n_generated).toNat
decreasing_by
  have hn : (loopBody eng vocab ctx smpl st).1.n_generated = st.n_generated + 1 := by
    unfold loopBody at _hgo ⊢
    dsimp only at _hgo ⊢
    split_ifs at _hgo ⊢ <;> simp_all
  rw [hn]
  omega

/-- The loop with an iteration budget, by recursion on the budget.  It is the
loop itself once the budget covers `actualMax - n_generated`
(`generationLoop_eq_fuel`), and it evaluates by plain reduction. -/
def generationLoopFuel (eng : Engine σ) (vocab : VocabRef) (ctx : CtxRef) (smpl : SamplerRef)
    (actualMax : Int) : Nat → LoopState σ → LoopState σ
  | 0, st => st
  | fuel + 1, st =>
    if st.n_generated < actualMax then
      if (loopBody eng vocab ctx smpl st).2 = true then
        generationLoopFuel eng vocab ctx smpl actualMax fuel (loopBody eng vocab ctx smpl st).1
      else (loopBody eng vocab ctx smpl st).1
    else st

/-- What `nativeGenerate` leaves behind: the engine state, the calls it made,
the returned string (`none` when the call ends in an uncaught C++ exception
instead of returning) and, when line 227 is reached, the values of `result`
and `n_generated` there. -/
structure GenOutcome (σ : Type) where
  state : σ
  trace : List Call
  ret : Option String
  loop : Option (CStr × Int)

/-- The `const char *` view of a `std::string`: the bytes before the first NUL. -/
def c_str (text : CStr) : CStr :=
  text.takeWhile (fun ch => ch != '\x00')

/-- The `jstring` made by `env->NewStringUTF` from a C string. -/
def NewStringUTF (bytes : CStr) : String :=
  String.mk bytes

/-- The buffer of a `std::vector<llama_token>` after the engine wrote `written`
at its start. -/
def vectorWrite (buf written : List Token) : List Token :=
  written.take buf.length ++ buf.drop written.length

/-- `std::vector<llama_token>::resize(n)`: cut, or fill up with zeros. -/
def vectorResize (v : List Token) (n : Nat) : List Token :=
  v.take n ++ List.replicate (n - v.length) 0

/-- Lines 133-140 of `nativeGenerate`: the size of the token buffer, from the
value `n_tokens` of the probe and the context size. -/
def neededTokens (n_tokens n_ctx : Int) : Int :=
  -- int needed = n_tokens < 0 ? -n_tokens : n_tokens;
  let needed : Int := if n_tokens < 0 then -n_tokens else n_tokens
  -- if (needed >= wrapper->n_ctx) needed = wrapper->n_ctx - 64;
  if needed ≥ n_ctx then n_ctx - 64 else needed

/-- Lines 168-233 of `nativeGenerate`, the part after a successful prefill:
the greedy sampler is built, the loop runs, the sampler is freed and the
result is returned.  `s` and `trace` are the engine state and the call log
after the prefill decode step. -/
def generateAfterPrefill (eng : Engine σ) (vocab : VocabRef) (ctx : CtxRef) (s : σ)
    (trace : List Call) (maxTokens : Int) : GenOutcome σ :=
  -- sparams.no_perf = true; smpl = llama_sampler_chain_init(sparams);
  let chain := eng.llama_sampler_chain_init s true
  let smpl := chain.2
  -- llama_sampler_chain_add(smpl, llama_sampler_init_greedy());
  let greedy := eng.llama_sampler_init_greedy chain.1
  let s2 := eng.llama_sampler_chain_add greedy.1 smpl greedy.2
  let t4 := trace ++ [Call.sampler_chain_init true smpl, Call.sampler_init_greedy greedy.2,
                      Call.sampler_chain_add smpl greedy.2]
  -- std::string result; int n_generated = 0;
  -- int actualMax = maxTokens < 128 ? maxTokens : 128;
  let actualMax : Int := if maxTokens < 128 then maxTokens else 128
  let fin := generationLoop eng vocab ctx smpl actualMax
    { state := s2, trace := t4, result := [], n_generated := 0 }
  -- llama_sampler_free(smpl);
  let s3 := eng.llama_sampler_free fin.state smpl
  let t5 := fin.trace ++ [Call.sampler_free smpl]
  -- if (result.empty()) return "[No translation generated]"; return result.c_str();
  { state := s3, trace := t5,
    ret := if fin.result.isEmpty then some "[No translation generated]"
           else some (NewStringUTF (c_str fin.result)),
    loop := some (fin.result, fin.n_generated) }

/-- `Java_com_arm_translator_TranslationEngine_nativeGenerate`, lines 100-166,
continued by `generateAfterPrefill`.  `promptStr` is the C string of the
prompt, so `strlen(promptStr)` is its length and the engine is given all of
it. -/
def nativeGenerate (eng : Engine σ) (s : σ) (handle : Option LlamaContext)
    (prompt : String) (maxTokens : Int) : GenOutcome σ :=
  let invalid : GenOutcome σ :=
    { state := s, trace := [], ret := some "[Error: model not loaded]", loop := none }
  match handle with
  | none => invalid
  | some wrapper =>
  match wrapper.ctx, wrapper.model with
  | none, _ => invalid
  | some _, none => invalid
  | some ctx, some _ =>
  match eng.GetStringUTFChars prompt with
  | none => { state := s, trace := [], ret := some "[Error: null prompt]", loop := none }
  | some promptStr =>
  -- int n_tokens = llama_tokenize(vocab, promptStr, promptLen, nullptr, 0, true, true);
  let probe := eng.llama_tokenize wrapper.vocab promptStr 0 true true
  let t1 := [Call.tokenize wrapper.vocab promptStr 0 probe.1]
  if probe.1 = 0 then
    { state := s, trace := t1, ret := some "[Error: empty tokenization]", loop := none }
  else
  let needed : Int := neededTokens probe.1 wrapper.n_ctx
  -- std::vector<llama_token> tokens(needed);  a negative size throws
  if needed < 0 then
    { state := s, trace := t1, ret := none, loop := none }
  else
  let tokens0 : List Token := List.replicate needed.toNat 0
  -- n_tokens = llama_tokenize(vocab, promptStr, promptLen, tokens.data(), tokens.size(), true, true);
  let sized := eng.llama_tokenize wrapper.vocab promptStr tokens0.length true true
  let t2 := t1 ++ [Call.tokenize wrapper.vocab promptStr tokens0.length sized.1]
  if sized.1 < 0 then
    { state := s, trace := t2, ret := some "[Error: tokenization failed]", loop := none }
  else
  -- tokens.resize(n_tokens);
  let tokens := vectorResize (vectorWrite tokens0 sized.2) sized.1.toNat
  -- llama_memory_clear(llama_get_memory(wrapper->ctx), true);
  let s1 := eng.llama_memory_clear s ctx
  -- int decode_result = llama_decode(wrapper->ctx, llama_batch_get_one(tokens.data(), n_tokens));
  let dec := eng.llama_decode s1 ctx tokens
  let t3 := t2 ++ [Call.memory_clear ctx, Call.decode ctx tokens dec.2]
  if dec.2 ≠ 0 then
    { state := dec.1, trace := t3, ret := some "[Error: decode failed]", loop := none }
  else
    generateAfterPrefill eng wrapper.vocab ctx dec.1 t3 maxTokens

/-! ## Observations on the call log -/

/-- The batch of the first `llama_decode` call of a log: in `nativeGenerate`
the first decode step is the prefill. -/
def prefillBatch (tr : List Call) : Option (List Token) :=
  tr.findSome? fun c =>
    match c with
    | Call.decode _ batch _ => some batch
    | _ => none

/-- For each `llama_token_to_piece` call of a log, in order, the bytes the
loop body appends to `result` after it: the first `len` bytes of the buffer
when `len > 0`, nothing otherwise. -/
def appendedChunks (tr : List Call) : List CStr :=
  tr.filterMap fun c =>
    match c with
    | Call.token_to_piece _ _ _ res buf => some (if res > 0 then buf.take res.toNat else [])
    | _ => none

/-- The number of `result.append` executions: the `llama_token_to_piece` calls
that returned a positive length. -/
def appendedCount (tr : List Call) : Nat :=
  tr.countP fun c =>
    match c with
    | Call.token_to_piece _ _ _ res _ => decide (res > 0)
    | _ => false

/-- The accumulated text after the first `k` detokenized tokens of a log. -/
def textAfter (k : Nat) (tr : List Call) : CStr :=
  ((appendedChunks tr).take k).flatten

/-- The tokens given to `llama_sampler_accept`, in order. -/
def acceptedTokens (tr : List Call) : List Token :=
  tr.filterMap fun c =>
    match c with
    | Call.sampler_accept _ tok => some tok
    | _ => none

/-- The answer of the first `llama_vocab_is_eog` call of a log, if any. -/
def firstEog (tr : List Call) : Option Bool :=
  tr.findSome? fun c =>
    match c with
    | Call.vocab_is_eog _ _ res => some res
    | _ => none

/-- Some sampled token was an end-of-generation token. -/
def eogSampled (tr : List Call) : Bool :=
  tr.any fun c =>
    match c with
    | Call.vocab_is_eog _ _ res => res
    | _ => false

/-- Some `llama_decode` call returned a nonzero status. -/
def decodeFailed (tr : List Call) : Bool :=
  tr.any fun c =>
    match c with
    | Call.decode _ _ res => res != 0
    | _ => false

/-- The number of `llama_decode` calls. -/
def decodeCount (tr : List Call) : Nat :=
  tr.countP fun c =>
    match c with
    | Call.decode _ _ _ => true
    | _ => false

/-- The calls that work on the decode cache: clearing it and decoding into it. -/
def cacheCalls (tr : List Call) : List Call :=
  tr.filter fun c =>
    match c with
    | Call.memory_clear _ => true
    | Call.decode _ _ _ => true
    | _ => false

/-- A call is a decode step on the context `ctx`. -/
def decodesOn (ctx : CtxRef) (c : Call) : Bool :=
  match c with
  | Call.decode c2 _ _ => c2 == ctx
  | _ => false

/-- No decode step of the log runs on an uncleared cache of the context `ctx`:
the first call that touches a cache, if there is one, clears the cache of
`ctx`, and every later one is a decode step on `ctx`. -/
def clearedBeforeDecode (ctx : CtxRef) (tr : List Call) : Bool :=
  match cacheCalls tr with
  | [] => true
  | Call.memory_clear c :: rest => c == ctx && rest.all (decodesOn ctx)
  | _ => false

/-- The calls `nativeGenerate` has made after a successful prefill: the probe,
the sized tokenization, the cache clear and the prefill decode step. -/
def prefillTrace (vocab : VocabRef) (ctx : CtxRef) (text : CStr) (probe : Int) (cap : Nat)
    (sized : Int) (batch : List Token) : List Call :=
  [Call.tokenize vocab text 0 probe, Call.tokenize vocab text cap sized,
   Call.memory_clear ctx, Call.decode ctx batch 0]

/-- The loop invariant behind the newline rule: `result` is the concatenation
of the chunks appended so far, there is one chunk for each counted token, and
at no earlier count of 4 or more did the text contain a line break. -/
def ChunkInv (st : LoopState σ) : Prop :=
  st.result = (appendedChunks st.trace).flatten ∧
  ((appendedChunks st.trace).length : Int) = st.n_generated ∧
  ∀ k : Nat, 4 ≤ k → (k : Int) < st.n_generated → '\n' ∉ textAfter k st.trace

/-! ## The interface contracts of the engine (spec section 6) -/

/-- Modelled from the spec: the contract of the engine's `tokenize` (section 6,
`count | negativeNeededCount`), at the flags `nativeGenerate` passes
(`add_special = true`, `parse_special = true`), for one text whose
tokenization with these flags is `full`: with a buffer of at least
`full.length` entries the call returns the count and writes `full`; with a
smaller buffer it returns the negated count. -/
def TokenizeContract (eng : Engine σ) (vocab : VocabRef) (text : CStr)
    (full : List Token) : Prop :=
  ∀ cap : Nat,
    (full.length ≤ cap →
      (eng.llama_tokenize vocab text cap true true).1 = (full.length : Int) ∧
      (eng.llama_tokenize vocab text cap true true).2.take full.length = full) ∧
    (cap < full.length →
      (eng.llama_tokenize vocab text cap true true).1 = -(full.length : Int))

/-- Modelled from the spec: the contract of the engine's `detokenize` (section
6, `byteLength`), at the arguments the generation loop passes (`lstrip = 0`,
`special = true`), for a vocabulary whose token `tok` then has the text
fragment `frag tok`: when the fragment fits the buffer the call returns its
byte length and writes it; otherwise it returns a negative value. -/
def DetokenizeContract (eng : Engine σ) (vocab : VocabRef) (frag : Token → CStr) : Prop :=
  ∀ (tok : Token) (cap : Nat),
    ((frag tok).length ≤ cap →
      (eng.llama_token_to_piece vocab tok cap 0 true).1 = ((frag tok).length : Int) ∧
      (eng.llama_token_to_piece vocab tok cap 0 true).2.take (frag tok).length
        = frag tok) ∧
    (cap < (frag tok).length →
      (eng.llama_token_to_piece vocab tok cap 0 true).1 < 0)

/-- The fragments of the given tokens that fit the 255-byte buffer of the loop
body, concatenated in order. -/
def fittingText (frag : Token → CStr) (toks : List Token) : CStr :=
  (toks.map fun tok => if (frag tok).length ≤ 255 then frag tok else []).flatten

/-! ## Resource accounting of the engine -/

/-- Modelled from the spec: the resources of the external model engine that
sections 3, 4.1 and 6 name (process-wide engine initialization, loaded
models, decode contexts); `llama.h` is not part of this repository. -/
structure Resources where
  backend : Bool
  models : List ModelRef
  contexts : List CtxRef
deriving DecidableEq, Repr

/-- Modelled from the spec: the effect of one engine call on the resources
(section 6: `loadModel`, `createDecodeContext`, `freeContext`, `freeModel`,
global engine init/teardown).  A failed acquisition acquires nothing. -/
def Resources.step (r : Resources) (c : Call) : Resources :=
  match c with
  | Call.backend_init => { r with backend := true }
  | Call.backend_free => { r with backend := false }
  | Call.model_load_from_file _ _ (some m) => { r with models := m :: r.models }
  | Call.new_context_with_model _ _ (some cx) => { r with contexts := cx :: r.contexts }
  | Call.model_free m => { r with models := r.models.erase m }
  | Call.free cx => { r with contexts := r.contexts.erase cx }
  | _ => r

/-- The resources after a log of calls. -/
def Resources.replay (r : Resources) (tr : List Call) : Resources :=
  tr.foldl Resources.step r

/-- A log records a failed acquisition: a model load, a vocabulary lookup or a
context creation that returned `nullptr`. -/
def acquisitionFailed (tr : List Call) : Bool :=
  tr.any fun c =>
    match c with
    | Call.model_load_from_file _ _ none => true
    | Call.model_get_vocab _ none => true
    | Call.new_context_with_model _ _ none => true
    | _ => false

/-! ## A small concrete engine -/

/-- The knobs of the concrete engine `toyEngine`. -/
structure ToyConfig where
  /-- The greedy choice, as a function of the number of cached tokens. -/
  next : Nat → Token
  /-- The tokens on which a decode step fails. -/
  failOn : Token → Bool
  /-- What loading the model returns. -/
  model : Option ModelRef
  /-- What the vocabulary lookup returns. -/
  vocab : Option VocabRef
  /-- What creating the decode context returns. -/
  ctx : Option CtxRef

/-- The vocabulary of `toyEngine`: the text fragment of each token, rendered
with special tokens and without stripping.  Token 14 has a fragment of 256
bytes, token 16 one with a leading blank, token 2 (the end marker) and all
others none. -/
def toyPiece (tok : Token) : CStr :=
  if tok = 10 then ['a']
  else if tok = 11 then ['\n']
  else if tok = 12 then ['b']
  else if tok = 13 then ['c']
  else if tok = 14 then List.replicate 256 'x'
  else if tok = 16 then [' ', 'd']
  else []

/-- The tokenization of `toyEngine` with special tokens added: token 1
(beginning of sequence), then one token for each character. -/
def toyTokens (text : CStr) : List Token :=
  1 :: text.map fun ch => (ch.toNat : Int)

/-- What `toyEngine` tokenizes a text to: with `add_special` the sequence
`toyTokens text`, without it the same sequence less the leading token 1. -/
def toyTokenize (text : CStr) (add_special : Bool) : List Token :=
  if add_special then toyTokens text else text.map fun ch => (ch.toNat : Int)

/-- A fragment less up to `n` leading blanks. -/
def lstripBlanks : Nat → CStr → CStr
  | 0, l => l
  | _ + 1, [] => []
  | n + 1, ch :: l => if ch = ' ' then lstripBlanks n l else ch :: l

/-- What `toyEngine` renders a token to: its fragment less up to `lstrip`
leading blanks. -/
def toyRender (tok : Token) (lstrip : Int) : CStr :=
  lstripBlanks lstrip.toNat (toyPiece tok)

/-- A deterministic engine whose state is the decode cache, the list of the
tokens decoded since the last clear.  Its tokenizer adds the leading token
only under `add_special`, its detokenizer strips leading blanks under
`lstrip`, and both follow the interface contracts. -/
def toyEngine (cfg : ToyConfig) : Engine (List Token) where
  llama_backend_init := fun s => s
  llama_backend_free := fun s => s
  llama_model_load_from_file := fun s _ _ => (s, cfg.model)
  llama_model_get_vocab := fun _ _ => cfg.vocab
  llama_vocab_n_tokens := fun _ _ => 16
  llama_new_context_with_model := fun s _ _ => (s, cfg.ctx)
  llama_model_free := fun s _ => s
  llama_free := fun s _ => s
  llama_tokenize := fun _ text cap add_special _ =>
    if (toyTokenize text add_special).length ≤ cap then
      (((toyTokenize text add_special).length : Int), toyTokenize text add_special)
    else (-((toyTokenize text add_special).length : Int), [])
  llama_memory_clear := fun _ _ => []
  llama_decode := fun s _ batch => if batch.any cfg.failOn then (s, 1) else (s ++ batch, 0)
  llama_sampler_chain_init := fun s _ => (s, 1)
  llama_sampler_init_greedy := fun s => (s, 2)
  llama_sampler_chain_add := fun s _ _ => s
  llama_sampler_sample := fun s _ _ => (s, cfg.next s.length)
  llama_vocab_is_eog := fun _ tok => tok == 2
  llama_sampler_accept := fun s _ _ => s
  llama_token_to_piece := fun _ tok cap lstrip _ =>
    if (toyRender tok lstrip).length ≤ cap then
      (((toyRender tok lstrip).length : Int), toyRender tok lstrip)
    else (-((toyRender tok lstrip).length : Int), [])
  llama_sampler_free := fun s _ => s
  GetStringUTFChars := fun p => some p.toList

/-- A handle as `nativeInit` builds it, with a context of `n_ctx` tokens. -/
def toyHandle (n_ctx : Int) : LlamaContext :=
  { model := some 1, ctx := some 1, vocab := 1, n_ctx := n_ctx, n_vocab := 16 }

/-- A configuration whose model, vocabulary and context are all available. -/
def toyConfig (next : Nat → Token) (failOn : Token → Bool) : ToyConfig :=
  { next := next, failOn := failOn, model := some 1, vocab := some 1, ctx := some 1 }

/-- A configuration whose model cannot be loaded. -/
def toyNoModel : ToyConfig :=
  { next := fun _ => 2, failOn := fun _ => false, model := none, vocab := some 1,
    ctx := some 1 }

/-- A configuration whose model loads, at address 7, and has no vocabulary. -/
def toyNoVocab : ToyConfig :=
  { next := fun _ => 2, failOn := fun _ => false, model := some 7, vocab := none,
    ctx := some 1 }

/-- After the two prompt tokens of a one-character prompt: "a", a line break,
"b", "c", then the end marker. -/
def scriptNewline (cached : Nat) : Token :=
  if cached = 2 then 10 else if cached = 3 then 11 else if cached = 4 then 12
  else if cached = 5 then 13 else 2

/-- The end marker at once. -/
def scriptEog (_cached : Nat) : Token := 2

/-- First "a", then the end marker. -/
def scriptA (cached : Nat) : Token :=
  if cached = 2 then 10 else 2

/-- First the token with the 256-byte fragment, then the end marker. -/
def scriptLong (cached : Nat) : Token :=
  if cached = 2 then 14 else 2

/-- First a control token without text (15), then the end marker. -/
def scriptControl (cached : Nat) : Token :=
  if cached = 2 then 15 else 2

/-- First the token whose fragment starts with a blank (16), then "a", then
the end marker. -/
def scriptBlank (cached : Nat) : Token :=
  if cached = 2 then 16 else if cached = 3 then 10 else 2

/-! ## The loop and its budgeted form -/

theorem generationLoop_eq_fuel_of_le (eng : Engine σ) (vocab : VocabRef) (ctx : CtxRef)
    (smpl : SamplerRef) (actualMax : Int) (fuel : Nat) :
    ∀ st : LoopState σ, (actualMax - st.n_generated).toNat ≤ fuel →
      generationLoop eng vocab ctx smpl actualMax st
        = generationLoopFuel eng vocab ctx smpl actualMax fuel st := by
  induction fuel with
  | zero =>
    intro st h
    have hlt : ¬ st.n_generated < actualMax := by omega
    rw [generationLoop, generationLoopFuel]
    simp [hlt]
  | succ k ih =>
    intro st h
    rw [generationLoop, generationLoopFuel]
    by_cases h1 : st.n_generated < actualMax
    · by_cases h2 : (loopBody eng vocab ctx smpl st).2 = true
      · have hn : (loopBody eng vocab ctx smpl st).1.n_generated = st.n_generated + 1 := by
          unfold loopBody at h2 ⊢
          dsimp only at h2 ⊢
          split_ifs at h2 ⊢ <;> simp_all
        simp only [h1, h2, if_true, dite_true]
        apply ih
        rw [hn]
        omega
      · simp [h1, h2]
    · simp [h1]

/-- The loop is its budgeted form with the budget `actualMax - n_generated`. -/
theorem generationLoop_eq_fuel (eng : Engine σ) (vocab : VocabRef) (ctx : CtxRef)
    (smpl : SamplerRef) (actualMax : Int) (st : LoopState σ) :
    generationLoop eng vocab ctx smpl actualMax st
      = generationLoopFuel eng vocab ctx smpl actualMax
          (actualMax - st.n_generated).toNat st :=
  generationLoop_eq_fuel_of_le eng vocab ctx smpl actualMax _ st (le_refl _)

/-- What one pass through the loop body does, by cases: the sampled token is
an end marker; or it is accepted, detokenized and decoded, and then the decode
step failed, or the token was counted and the newline test decided. -/
theorem loopBody_spec (eng : Engine σ) (vocab : VocabRef) (ctx : CtxRef) (smpl : SamplerRef)
    (st : LoopState σ) :
    ∃ (tok : Token) (len : Int) (buf : CStr) (status : Int),
      (len, buf) = eng.llama_token_to_piece vocab tok 255 0 true ∧
      ((eng.llama_vocab_is_eog vocab tok = true ∧
          (loopBody eng vocab ctx smpl st).2 = false ∧
          (loopBody eng vocab ctx smpl st).1.trace
            = st.trace ++ [Call.sampler_sample smpl ctx tok, Call.vocab_is_eog vocab tok true] ∧
          (loopBody eng vocab ctx smpl st).1.result = st.result ∧
          (loopBody eng vocab ctx smpl st).1.n_generated = st.n_generated) ∨
       ((loopBody eng vocab ctx smpl st).1.trace
            = st.trace ++ [Call.sampler_sample smpl ctx tok, Call.vocab_is_eog vocab tok false,
                Call.sampler_accept smpl tok, Call.token_to_piece vocab tok 255 len buf,
                Call.decode ctx [tok] status] ∧
          (loopBody eng vocab ctx smpl st).1.result
            = st.result ++ (if len > 0 then buf.take len.toNat else []) ∧
          ((status ≠ 0 ∧ (loopBody eng vocab ctx smpl st).2 = false ∧
              (loopBody eng vocab ctx smpl st).1.n_generated = st.n_generated) ∨
           (status = 0 ∧
              (loopBody eng vocab ctx smpl st).1.n_generated = st.n_generated + 1 ∧
              ((loopBody eng vocab ctx smpl st).2 = false ↔
                ('\n' ∈ (loopBody eng vocab ctx smpl st).1.result ∧
                  3 < (loopBody eng vocab ctx smpl st).1.n_generated)))))) := by
  refine ⟨(eng.llama_sampler_sample st.state smpl ctx).2,
    (eng.llama_token_to_piece vocab (eng.llama_sampler_sample st.state smpl ctx).2 255 0 true).1,
    (eng.llama_token_to_piece vocab (eng.llama_sampler_sample st.state smpl ctx).2 255 0 true).2,
    (eng.llama_decode
      (eng.llama_sampler_accept (eng.llama_sampler_sample st.state smpl ctx).1 smpl
        (eng.llama_sampler_sample st.state smpl ctx).2) ctx
      [(eng.llama_sampler_sample st.state smpl ctx).2]).2, rfl, ?_⟩
  unfold loopBody
  dsimp only
  by_cases heog : eng.llama_vocab_is_eog vocab (eng.llama_sampler_sample st.state smpl ctx).2 = true
  · left
    simp [heog]
  · right
    simp only [Bool.not_eq_true] at heog
    by_cases hdec : (eng.llama_decode
        (eng.llama_sampler_accept (eng.llama_sampler_sample st.state smpl ctx).1 smpl
          (eng.llama_sampler_sample st.state smpl ctx).2) ctx
        [(eng.llama_sampler_sample st.state smpl ctx).2]).2 = 0
    · simp only [heog, hdec]
      split_ifs <;> simp_all
    · simp only [heog]
      split_ifs <;> simp_all

/-- Induction along the loop: a relation between the state at the loop test
and the state the loop ends in holds when it holds for a failed test and for a
pass that breaks, and is carried backwards over a pass that goes on. -/
theorem generationLoop_induct (eng : Engine σ) (vocab : VocabRef) (ctx : CtxRef)
    (smpl : SamplerRef) (actualMax : Int) (P : LoopState σ → LoopState σ → Prop)
    (hexit : ∀ st, ¬ st.n_generated < actualMax → P st st)
    (hbreak : ∀ st, st.n_generated < actualMax →
      (loopBody eng vocab ctx smpl st).2 = false → P st (loopBody eng vocab ctx smpl st).1)
    (hcont : ∀ st fin, st.n_generated < actualMax →
      (loopBody eng vocab ctx smpl st).2 = true →
      P (loopBody eng vocab ctx smpl st).1 fin → P st fin) :
    ∀ st, P st (generationLoop eng vocab ctx smpl actualMax st) := by
  have key : ∀ (fuel : Nat) (st : LoopState σ), (actualMax - st.n_generated).toNat ≤ fuel →
      P st (generationLoopFuel eng vocab ctx smpl actualMax fuel st) := by
    intro fuel
    induction fuel with
    | zero =>
      intro st h
      rw [generationLoopFuel]
      exact hexit st (by omega)
    | succ k ih =>
      intro st h
      rw [generationLoopFuel]
      by_cases h1 : st.n_generated < actualMax
      · by_cases h2 : (loopBody eng vocab ctx smpl st).2 = true
        · simp only [h1, h2, if_true]
          apply hcont st _ h1 h2
          apply ih
          obtain ⟨tok, len, buf, status, -, hc⟩ := loopBody_spec eng vocab ctx smpl st
          rcases hc with ⟨-, hb, -⟩ | ⟨-, -, ⟨-, hb, -⟩ | ⟨-, hn, -⟩⟩
          · rw [hb] at h2; exact absurd h2 (by simp)
          · rw [hb] at h2; exact absurd h2 (by simp)
          · rw [hn]; omega
        · simp only [h1, h2, if_true, if_false]
          exact hbreak st h1 (by simpa using h2)
      · simp only [h1, if_false]
        exact hexit st h1
  intro st
  rw [generationLoop_eq_fuel]
  exact key _ st (le_refl _)

/-! ## The paths through nativeGenerate -/

/-- A call of `nativeGenerate` either returns before the generation loop,
having sampled and detokenized nothing, or goes through a successful prefill
and continues with `generateAfterPrefill`. -/
theorem nativeGenerate_cases (eng : Engine σ) (s : σ) (handle : Option LlamaContext)
    (prompt : String) (maxTokens : Int) :
    ((nativeGenerate eng s handle prompt maxTokens).loop = none ∧
      appendedCount (nativeGenerate eng s handle prompt maxTokens).trace = 0 ∧
      firstEog (nativeGenerate eng s handle prompt maxTokens).trace = none ∧
      ∀ w c, handle = some w → w.ctx = some c →
        clearedBeforeDecode c (nativeGenerate eng s handle prompt maxTokens).trace = true) ∨
    (∃ (w : LlamaContext) (ctx : CtxRef) (text : CStr) (probe : Int) (cap : Nat) (sized : Int)
        (batch : List Token) (s0 : σ),
      handle = some w ∧ w.ctx = some ctx ∧
      nativeGenerate eng s handle prompt maxTokens =
        generateAfterPrefill eng w.vocab ctx s0
          (prefillTrace w.vocab ctx text probe cap sized batch) maxTokens) := by
  generalize hout : nativeGenerate eng s handle prompt maxTokens = out
  unfold nativeGenerate at hout
  dsimp only at hout
  split at hout
  · left; subst hout; simp_all [appendedCount, firstEog, clearedBeforeDecode, cacheCalls, decodesOn]
  · split at hout
    · left; subst hout; simp_all [appendedCount, firstEog, clearedBeforeDecode, cacheCalls, decodesOn]
    · left; subst hout; simp_all [appendedCount, firstEog, clearedBeforeDecode, cacheCalls, decodesOn]
    · split at hout
      · left; subst hout; simp_all [appendedCount, firstEog, clearedBeforeDecode, cacheCalls, decodesOn]
      · split at hout
        · left; subst hout; simp_all [appendedCount, firstEog, clearedBeforeDecode, cacheCalls, decodesOn]
        · split at hout
          · left; subst hout; simp_all [appendedCount, firstEog, clearedBeforeDecode, cacheCalls, decodesOn]
          · split at hout
            · left; subst hout; simp_all [appendedCount, firstEog, clearedBeforeDecode, cacheCalls, decodesOn]
            · split at hout
              · left; subst hout
                simp_all [appendedCount, firstEog, clearedBeforeDecode, cacheCalls, decodesOn]
                intro w c hw hc
                subst hw
                simp_all
              · right
                rename_i hdec
                simp only [ne_eq, not_not] at hdec
                rw [hdec] at hout
                exact ⟨_, _, _, _, _, _, _, _, rfl, by assumption, hout.symm⟩

/-- The outcome of `generateAfterPrefill`, in terms of the state the loop
ends in. -/
theorem generateAfterPrefill_spec (eng : Engine σ) (vocab : VocabRef) (ctx : CtxRef) (s : σ)
    (trace : List Call) (maxTokens : Int) :
    ∃ (smpl greedy : SamplerRef) (s2 : σ) (fin : LoopState σ),
      fin = generationLoop eng vocab ctx smpl (if maxTokens < 128 then maxTokens else 128)
        { state := s2,
          trace := trace ++ [Call.sampler_chain_init true smpl, Call.sampler_init_greedy greedy,
                             Call.sampler_chain_add smpl greedy],
          result := [], n_generated := 0 } ∧
      (generateAfterPrefill eng vocab ctx s trace maxTokens).trace
        = fin.trace ++ [Call.sampler_free smpl] ∧
      (generateAfterPrefill eng vocab ctx s trace maxTokens).ret
        = (if fin.result.isEmpty then some "[No translation generated]"
           else some (NewStringUTF (c_str fin.result))) ∧
      (generateAfterPrefill eng vocab ctx s trace maxTokens).loop
        = some (fin.result, fin.n_generated) :=
  ⟨_, _, _, _, rfl, rfl, rfl, rfl⟩

/-- The log only grows along the loop. -/
theorem generationLoop_trace (eng : Engine σ) (vocab : VocabRef) (ctx : CtxRef)
    (smpl : SamplerRef) (actualMax : Int) (st : LoopState σ) :
    ∃ delta, (generationLoop eng vocab ctx smpl actualMax st).trace = st.trace ++ delta := by
  refine generationLoop_induct eng vocab ctx smpl actualMax
    (fun st fin => ∃ delta, fin.trace = st.trace ++ delta) ?_ ?_ ?_ st
  · intro st _
    exact ⟨[], by simp⟩
  · intro st _ _
    obtain ⟨tok, len, buf, status, -, hc⟩ := loopBody_spec eng vocab ctx smpl st
    rcases hc with ⟨-, -, ht, -⟩ | ⟨ht, -⟩
    · exact ⟨_, ht⟩
    · exact ⟨_, ht⟩
  · intro st fin _ _ ih
    obtain ⟨d, hd⟩ := ih
    obtain ⟨tok, len, buf, status, -, hc⟩ := loopBody_spec eng vocab ctx smpl st
    rcases hc with ⟨-, -, ht, -⟩ | ⟨ht, -⟩
    · exact ⟨_, by rw [hd, ht, List.append_assoc]⟩
    · exact ⟨_, by rw [hd, ht, List.append_assoc]⟩

/-! ## C2: the token cap -/

theorem appendedCount_append (a b : List Call) :
    appendedCount (a ++ b) = appendedCount a + appendedCount b := by
  simp [appendedCount, List.countP_append]

theorem appendedCount_eog_pass (smpl : SamplerRef) (ctx : CtxRef) (vocab : VocabRef)
    (tok : Token) (r : Bool) :
    appendedCount [Call.sampler_sample smpl ctx tok, Call.vocab_is_eog vocab tok r] = 0 := by
  simp [appendedCount]

theorem appendedCount_pass (smpl : SamplerRef) (ctx : CtxRef) (vocab : VocabRef)
    (tok : Token) (len : Int) (buf : CStr) (status : Int) :
    appendedCount [Call.sampler_sample smpl ctx tok, Call.vocab_is_eog vocab tok false,
      Call.sampler_accept smpl tok, Call.token_to_piece vocab tok 255 len buf,
      Call.decode ctx [tok] status] ≤ 1 := by
  by_cases h : 0 < len <;> simp [appendedCount, h]

/-- From a count that does not exceed the cap, the loop ends with a count
between the initial one and the cap, and appends at most as many fragments as
there were tokens left to the cap. -/
theorem generationLoop_bounded (eng : Engine σ) (vocab : VocabRef) (ctx : CtxRef)
    (smpl : SamplerRef) (actualMax : Int) (st0 : LoopState σ)
    (hst : st0.n_generated ≤ actualMax) :
    (generationLoop eng vocab ctx smpl actualMax st0).n_generated ≤ actualMax ∧
    st0.n_generated ≤ (generationLoop eng vocab ctx smpl actualMax st0).n_generated ∧
    (appendedCount (generationLoop eng vocab ctx smpl actualMax st0).trace : Int)
      ≤ appendedCount st0.trace + (actualMax - st0.n_generated) := by
  refine generationLoop_induct eng vocab ctx smpl actualMax
    (fun st fin => st.n_generated ≤ actualMax →
      fin.n_generated ≤ actualMax ∧ st.n_generated ≤ fin.n_generated ∧
      (appendedCount fin.trace : Int) ≤ appendedCount st.trace + (actualMax - st.n_generated))
    ?_ ?_ ?_ st0 hst
  · intro st _ h
    refine ⟨h, le_refl _, ?_⟩
    omega
  · intro st hlt _ _
    obtain ⟨tok, len, buf, status, -, hc⟩ := loopBody_spec eng vocab ctx smpl st
    rcases hc with ⟨-, -, ht, -, hn⟩ | ⟨ht, -, ⟨-, -, hn⟩ | ⟨-, hn, -⟩⟩
    · rw [ht, hn, appendedCount_append, appendedCount_eog_pass]
      omega
    · have h1 := appendedCount_pass smpl ctx vocab tok len buf status
      rw [ht, hn, appendedCount_append]
      omega
    · have h1 := appendedCount_pass smpl ctx vocab tok len buf status
      rw [ht, hn, appendedCount_append]
      omega
  · intro st fin hlt hgo ih _
    obtain ⟨tok, len, buf, status, -, hc⟩ := loopBody_spec eng vocab ctx smpl st
    rcases hc with ⟨-, hb, -⟩ | ⟨ht, -, ⟨-, hb, -⟩ | ⟨-, hn, -⟩⟩
    · rw [hb] at hgo; exact absurd hgo (by simp)
    · rw [hb] at hgo; exact absurd hgo (by simp)
    · have h1 := appendedCount_pass smpl ctx vocab tok len buf status
      have h2 := ih (by omega)
      rw [ht, hn, appendedCount_append] at h2
      refine ⟨h2.1, by omega, ?_⟩
      omega

/-- C2: for every requested `maxTokens >= 0` and every engine, engine state and
log at loop entry, the generation part of `nativeGenerate` returns with a
generated-token count between 0 and `min maxTokens 128`, having executed
`result.append` at most `min maxTokens 128` times; the same bounds hold for
every call of `nativeGenerate`, whose log has no append outside the loop. -/
theorem generation_count_le_cap (eng : Engine σ) (maxTokens : Int) (hmax : 0 ≤ maxTokens) :
    (∀ (vocab : VocabRef) (ctx : CtxRef) (s : σ) (trace : List Call),
      ∃ r n, (generateAfterPrefill eng vocab ctx s trace maxTokens).loop = some (r, n) ∧
        0 ≤ n ∧ n ≤ min maxTokens 128 ∧
        (appendedCount (generateAfterPrefill eng vocab ctx s trace maxTokens).trace : Int)
          ≤ appendedCount trace + min maxTokens 128) ∧
    (∀ (s : σ) (handle : Option LlamaContext) (prompt : String),
      (∀ r n, (nativeGenerate eng s handle prompt maxTokens).loop = some (r, n) →
        0 ≤ n ∧ n ≤ min maxTokens 128) ∧
      (appendedCount (nativeGenerate eng s handle prompt maxTokens).trace : Int)
        ≤ min maxTokens 128) := by
  have hcap : (if maxTokens < 128 then maxTokens else 128) = min maxTokens 128 := by
    split_ifs with h
    · exact (min_eq_left (le_of_lt h)).symm
    · exact (min_eq_right (not_lt.mp h)).symm
  have hpos : (0 : Int) ≤ min maxTokens 128 := le_min hmax (by norm_num)
  have tail : ∀ (vocab : VocabRef) (ctx : CtxRef) (s : σ) (trace : List Call),
      ∃ r n, (generateAfterPrefill eng vocab ctx s trace maxTokens).loop = some (r, n) ∧
        0 ≤ n ∧ n ≤ min maxTokens 128 ∧
        (appendedCount (generateAfterPrefill eng vocab ctx s trace maxTokens).trace : Int)
          ≤ appendedCount trace + min maxTokens 128 := by
    intro vocab ctx s trace
    obtain ⟨smpl, greedy, s2, fin, hfin, htr, -, hloop⟩ :=
      generateAfterPrefill_spec eng vocab ctx s trace maxTokens
    rw [hcap] at hfin
    have hb := generationLoop_bounded eng vocab ctx smpl (min maxTokens 128)
      { state := s2,
        trace := trace ++ [Call.sampler_chain_init true smpl, Call.sampler_init_greedy greedy,
                           Call.sampler_chain_add smpl greedy],
        result := [], n_generated := 0 } hpos
    rw [← hfin] at hb
    refine ⟨fin.result, fin.n_generated, hloop, hb.2.1, hb.1, ?_⟩
    have h3 := hb.2.2
    rw [htr, appendedCount_append]
    rw [appendedCount_append] at h3
    have e1 : appendedCount [Call.sampler_free smpl] = 0 := by simp [appendedCount]
    have e2 : appendedCount [Call.sampler_chain_init true smpl, Call.sampler_init_greedy greedy,
        Call.sampler_chain_add smpl greedy] = 0 := by simp [appendedCount]
    simp only [e1, e2] at h3 ⊢
    simp only [Nat.cast_add, Nat.cast_zero, add_zero, sub_zero] at h3 ⊢
    exact h3
  refine ⟨tail, ?_⟩
  intro s handle prompt
  rcases nativeGenerate_cases eng s handle prompt maxTokens with
    ⟨hnone, hcount, -⟩ | ⟨w, ctx, text, probe, cap, sized, batch, s0, -, -, heq⟩
  · refine ⟨?_, ?_⟩
    · intro r n h
      rw [hnone] at h
      exact absurd h (by simp)
    · rw [hcount]
      exact_mod_cast hpos
  · rw [heq]
    obtain ⟨r, n, hloop, h0, h1, h2⟩ :=
      tail w.vocab ctx s0 (prefillTrace w.vocab ctx text probe cap sized batch)
    refine ⟨?_, ?_⟩
    · intro r' n' h
      rw [hloop] at h
      simp only [Option.some.injEq, Prod.mk.injEq] at h
      rw [← h.2]
      exact ⟨h0, h1⟩
    · have e : appendedCount (prefillTrace w.vocab ctx text probe cap sized batch) = 0 := by
        simp [appendedCount, prefillTrace]
      rw [e] at h2
      simpa using h2

/-- C2 at a concrete run: the toy engine would emit four fragments and more;
with `maxTokens = 3` the loop stops at the cap after three tokens and three
appends. -/
theorem generation_count_le_cap_witness :
    (0 : Int) ≤ 3 ∧
    (nativeGenerate (toyEngine (toyConfig scriptNewline fun _ => false)) []
        (some (toyHandle 512)) "x" 3).loop = some (['a', '\n', 'b'], 3) ∧
    (appendedCount (nativeGenerate (toyEngine (toyConfig scriptNewline fun _ => false)) []
        (some (toyHandle 512)) "x" 3).trace : Int) ≤ min 3 128 :=
  ⟨by decide,
    by simp only [nativeGenerate, generateAfterPrefill, generationLoop_eq_fuel]; decide,
    ((generation_count_le_cap (toyEngine (toyConfig scriptNewline fun _ => false)) 3
      (by decide)).2 [] (some (toyHandle 512)) "x").2⟩

/-! ## C3: the returned string -/

theorem appendedChunks_append (a b : List Call) :
    appendedChunks (a ++ b) = appendedChunks a ++ appendedChunks b := by
  simp [appendedChunks, List.filterMap_append]

theorem acceptedTokens_append (a b : List Call) :
    acceptedTokens (a ++ b) = acceptedTokens a ++ acceptedTokens b := by
  simp [acceptedTokens, List.filterMap_append]

/-- The text the loop ends with is the text it started with followed by the
chunks appended after the detokenize calls of the loop, in order; there is one
detokenize call for each accepted token. -/
theorem generationLoop_result (eng : Engine σ) (vocab : VocabRef) (ctx : CtxRef)
    (smpl : SamplerRef) (actualMax : Int) (st0 : LoopState σ) :
    ∃ delta, (generationLoop eng vocab ctx smpl actualMax st0).trace = st0.trace ++ delta ∧
      (generationLoop eng vocab ctx smpl actualMax st0).result
        = st0.result ++ (appendedChunks delta).flatten ∧
      (appendedChunks delta).length = (acceptedTokens delta).length := by
  refine generationLoop_induct eng vocab ctx smpl actualMax
    (fun st fin => ∃ delta, fin.trace = st.trace ++ delta ∧
      fin.result = st.result ++ (appendedChunks delta).flatten ∧
      (appendedChunks delta).length = (acceptedTokens delta).length) ?_ ?_ ?_ st0
  · intro st _
    exact ⟨[], by simp [appendedChunks, acceptedTokens]⟩
  · intro st _ _
    obtain ⟨tok, len, buf, status, -, hc⟩ := loopBody_spec eng vocab ctx smpl st
    rcases hc with ⟨-, -, ht, hr, -⟩ | ⟨ht, hr, -⟩
    · exact ⟨_, ht, by simp [hr, appendedChunks], by simp [appendedChunks, acceptedTokens]⟩
    · exact ⟨_, ht, by simp [hr, appendedChunks], by simp [appendedChunks, acceptedTokens]⟩
  · intro st fin _ _ ih
    obtain ⟨d, hd, hres, hlen⟩ := ih
    obtain ⟨tok, len, buf, status, -, hc⟩ := loopBody_spec eng vocab ctx smpl st
    rcases hc with ⟨-, -, ht, hr, -⟩ | ⟨ht, hr, -⟩
    · refine ⟨_, by rw [hd, ht, List.append_assoc], ?_, ?_⟩
      · rw [hres, hr, appendedChunks_append]
        simp [appendedChunks]
      · rw [appendedChunks_append, acceptedTokens_append, List.length_append,
          List.length_append, hlen]
        simp [appendedChunks, acceptedTokens]
    · refine ⟨_, by rw [hd, ht, List.append_assoc], ?_, ?_⟩
      · rw [hres, hr, appendedChunks_append]
        simp [appendedChunks]
      · rw [appendedChunks_append, acceptedTokens_append, List.length_append,
          List.length_append, hlen]
        simp [appendedChunks, acceptedTokens]

/-- A text without NUL byte is its own C string. -/
theorem c_str_of_no_nul (r : CStr) (h : '\x00' ∉ r) : c_str r = r := by
  unfold c_str
  rw [List.takeWhile_eq_self_iff]
  intro x hx
  have hne : x ≠ '\x00' := fun e => h (e ▸ hx)
  simpa using hne

set_option maxRecDepth 8000

/-- C3, counterexample: the returned string does not follow the token count.
When the decode step of the first accepted token fails, the count is 0 and the
text is "a", and "a" is returned, not the empty-result signal; when one
control token without text is generated before the end marker, the count is 1
and the empty-result signal is returned, not the (empty) accumulated text. -/
theorem result_by_count_counterexample :
    (nativeGenerate (toyEngine (toyConfig scriptA fun tok => tok == 10)) []
        (some (toyHandle 512)) "x" 50).loop = some (['a'], 0) ∧
    (nativeGenerate (toyEngine (toyConfig scriptA fun tok => tok == 10)) []
        (some (toyHandle 512)) "x" 50).ret = some "a" ∧
    (nativeGenerate (toyEngine (toyConfig scriptControl fun _ => false)) []
        (some (toyHandle 512)) "x" 50).loop = some ([], 1) ∧
    (nativeGenerate (toyEngine (toyConfig scriptControl fun _ => false)) []
        (some (toyHandle 512)) "x" 50).ret = some "[No translation generated]" := by
  simp only [nativeGenerate, generateAfterPrefill, generationLoop_eq_fuel]
  decide

/-- C3, amended: for every run of `nativeGenerate` that reaches the generation
loop, the result is the empty-result signal when the accumulated text is empty
at the end of the loop, which is so whenever no token was accepted, and is the
accumulated text itself when that is not empty (stated for a text without
NUL byte, which `result.c_str()` hands to `NewStringUTF` whole). -/
theorem result_by_text (eng : Engine σ) (s : σ) (handle : Option LlamaContext)
    (prompt : String) (maxTokens : Int) (r : CStr) (n : Int)
    (hloop : (nativeGenerate eng s handle prompt maxTokens).loop = some (r, n)) :
    (r = [] →
      (nativeGenerate eng s handle prompt maxTokens).ret = some "[No translation generated]") ∧
    (r ≠ [] → '\x00' ∉ r →
      (nativeGenerate eng s handle prompt maxTokens).ret = some (String.mk r)) ∧
    (acceptedTokens (nativeGenerate eng s handle prompt maxTokens).trace = [] → r = []) := by
  rcases nativeGenerate_cases eng s handle prompt maxTokens with
    ⟨hnone, -, -⟩ | ⟨w, ctx, text, probe, cap, sized, batch, s0, -, -, heq⟩
  · rw [hnone] at hloop
    exact absurd hloop (by simp)
  · rw [heq] at hloop ⊢
    obtain ⟨smpl, greedy, s2, fin, hfin, htr, hret, hl⟩ :=
      generateAfterPrefill_spec eng w.vocab ctx s0
        (prefillTrace w.vocab ctx text probe cap sized batch) maxTokens
    rw [hl] at hloop
    simp only [Option.some.injEq, Prod.mk.injEq] at hloop
    obtain ⟨hr, -⟩ := hloop
    rw [hret, hr]
    refine ⟨?_, ?_, ?_⟩
    · intro h
      simp [h]
    · intro h hnul
      simp [h, c_str_of_no_nul r hnul, NewStringUTF]
    · intro hacc
      obtain ⟨delta, hd, hres, hlen⟩ := generationLoop_result eng w.vocab ctx smpl
        (if maxTokens < 128 then maxTokens else 128)
        { state := s2,
          trace := prefillTrace w.vocab ctx text probe cap sized batch ++
            [Call.sampler_chain_init true smpl, Call.sampler_init_greedy greedy,
             Call.sampler_chain_add smpl greedy],
          result := [], n_generated := 0 }
      rw [← hfin] at hd hres
      rw [htr, hd, acceptedTokens_append, acceptedTokens_append] at hacc
      simp only [List.append_eq_nil] at hacc
      have hz : (appendedChunks delta).length = 0 := by rw [hlen, hacc.1.2]; rfl
      rw [← hr, hres, List.length_eq_zero.mp hz]
      rfl

/-- C3, amended, at a concrete run: the toy engine generates "a", a line
break, "b" and "c", and the text is returned. -/
theorem result_by_text_witness :
    (nativeGenerate (toyEngine (toyConfig scriptNewline fun _ => false)) [9, 9]
        (some (toyHandle 512)) "x" 50).loop = some (['a', '\n', 'b', 'c'], 4) ∧
    (nativeGenerate (toyEngine (toyConfig scriptNewline fun _ => false)) [9, 9]
        (some (toyHandle 512)) "x" 50).ret = some "a\nbc" :=
  have hloop : (nativeGenerate (toyEngine (toyConfig scriptNewline fun _ => false)) [9, 9]
      (some (toyHandle 512)) "x" 50).loop = some (['a', '\n', 'b', 'c'], 4) := by
    simp only [nativeGenerate, generateAfterPrefill, generationLoop_eq_fuel]
    decide
  ⟨hloop, (result_by_text _ _ _ _ _ _ _ hloop).2.1 (by decide) (by decide)⟩

/-! ## C4: the newline rule -/

theorem eogSampled_append (a b : List Call) :
    eogSampled (a ++ b) = (eogSampled a || eogSampled b) := by
  simp [eogSampled, List.any_append]

theorem decodeFailed_append (a b : List Call) :
    decodeFailed (a ++ b) = (decodeFailed a || decodeFailed b) := by
  simp [decodeFailed, List.any_append]

/-- A pass that accepts, detokenizes and counts a token keeps `ChunkInv`,
provided the text had no line break if the count was already 4 or more. -/
theorem chunkInv_pass (st st1 : LoopState σ) (calls : List Call) (chunk : CStr)
    (hinv : ChunkInv st) (hnl : 4 ≤ st.n_generated → '\n' ∉ st.result)
    (hchunks : appendedChunks calls = [chunk])
    (ht : st1.trace = st.trace ++ calls) (hr : st1.result = st.result ++ chunk)
    (hn : st1.n_generated = st.n_generated + 1) : ChunkInv st1 := by
  obtain ⟨h1, h2, h3⟩ := hinv
  have hc : appendedChunks st1.trace = appendedChunks st.trace ++ [chunk] := by
    rw [ht, appendedChunks_append, hchunks]
  refine ⟨?_, ?_, ?_⟩
  · rw [hr, hc, h1]
    simp
  · rw [hc, hn, ← h2]
    simp
  · intro k hk hlt
    rw [hn] at hlt
    have hkle : k ≤ (appendedChunks st.trace).length := by omega
    have e : textAfter k st1.trace = textAfter k st.trace := by
      unfold textAfter
      rw [hc, List.take_append_of_le_length hkle]
    rw [e]
    by_cases hk2 : (k : Int) < st.n_generated
    · exact h3 k hk hk2
    · have hkeq : k = (appendedChunks st.trace).length := by omega
      unfold textAfter
      rw [hkeq, List.take_length, ← h1]
      exact hnl (by omega)

/-- The loop never counts beyond the cap: it ends with a count that is at most
the cap, or the initial count if that was larger. -/
theorem generationLoop_count_le (eng : Engine σ) (vocab : VocabRef) (ctx : CtxRef)
    (smpl : SamplerRef) (actualMax : Int) (st0 : LoopState σ) :
    (generationLoop eng vocab ctx smpl actualMax st0).n_generated
      ≤ max actualMax st0.n_generated := by
  refine generationLoop_induct eng vocab ctx smpl actualMax
    (fun st fin => fin.n_generated ≤ max actualMax st.n_generated) ?_ ?_ ?_ st0
  · intro st _
    exact le_max_right _ _
  · intro st hlt _
    obtain ⟨tok, len, buf, status, -, hc⟩ := loopBody_spec eng vocab ctx smpl st
    rcases hc with ⟨-, -, -, -, hn⟩ | ⟨-, -, ⟨-, -, hn⟩ | ⟨-, hn, -⟩⟩ <;>
      rw [hn] <;> exact le_max_of_le_left (by omega)
  · intro st fin hlt hgo ih
    obtain ⟨tok, len, buf, status, -, hc⟩ := loopBody_spec eng vocab ctx smpl st
    rcases hc with ⟨-, hb, -⟩ | ⟨-, -, ⟨-, hb, -⟩ | ⟨-, hn, -⟩⟩
    · rw [hb] at hgo; exact absurd hgo (by simp)
    · rw [hb] at hgo; exact absurd hgo (by simp)
    · rw [hn] at ih
      have h1 : max actualMax (st.n_generated + 1) = actualMax := max_eq_left (by omega)
      rw [h1] at ih
      exact le_max_of_le_left ih

/-- The newline rule along the loop: from a state at the loop test that
satisfies `ChunkInv` and has no line break in the text if its count is 4 or
more, a run without end marker and without failed decode step ends in a state
that satisfies `ChunkInv` and, if its count is below the cap, has a count of
at least 4 and a line break in the text. -/
theorem generationLoop_newline (eng : Engine σ) (vocab : VocabRef) (ctx : CtxRef)
    (smpl : SamplerRef) (actualMax : Int) (st0 : LoopState σ)
    (hinv : ChunkInv st0) (hnl : 4 ≤ st0.n_generated → '\n' ∉ st0.result)
    (heog : eogSampled (generationLoop eng vocab ctx smpl actualMax st0).trace = false)
    (hdec : decodeFailed (generationLoop eng vocab ctx smpl actualMax st0).trace = false) :
    ChunkInv (generationLoop eng vocab ctx smpl actualMax st0) ∧
    ((generationLoop eng vocab ctx smpl actualMax st0).n_generated < actualMax →
      4 ≤ (generationLoop eng vocab ctx smpl actualMax st0).n_generated ∧
      '\n' ∈ (generationLoop eng vocab ctx smpl actualMax st0).result) := by
  refine generationLoop_induct eng vocab ctx smpl actualMax
    (fun st fin => ChunkInv st → (4 ≤ st.n_generated → '\n' ∉ st.result) →
      eogSampled fin.trace = false → decodeFailed fin.trace = false →
      ChunkInv fin ∧ (fin.n_generated < actualMax → 4 ≤ fin.n_generated ∧ '\n' ∈ fin.result))
    ?_ ?_ ?_ st0 hinv hnl heog hdec
  · intro st hge hi _ _ _
    exact ⟨hi, fun h => absurd h hge⟩
  · intro st _ hbr hi hn4 he hd
    obtain ⟨tok, len, buf, status, -, hc⟩ := loopBody_spec eng vocab ctx smpl st
    rcases hc with ⟨-, -, ht, -⟩ | ⟨ht, hr, ⟨hs, -, -⟩ | ⟨hs, hn, hiff⟩⟩
    · rw [ht, eogSampled_append] at he
      simp [eogSampled] at he
    · rw [ht, decodeFailed_append] at hd
      simp [decodeFailed, hs] at hd
    · obtain ⟨hmem, h4⟩ := hiff.mp hbr
      refine ⟨chunkInv_pass st _ _ _ hi hn4 (by simp [appendedChunks]) ht hr hn, ?_⟩
      intro _
      exact ⟨by omega, hmem⟩
  · intro st fin _ hgo ih hi hn4 he hd
    obtain ⟨tok, len, buf, status, -, hc⟩ := loopBody_spec eng vocab ctx smpl st
    rcases hc with ⟨-, hb, -⟩ | ⟨ht, hr, ⟨-, hb, -⟩ | ⟨hs, hn, hiff⟩⟩
    · rw [hb] at hgo; exact absurd hgo (by simp)
    · rw [hb] at hgo; exact absurd hgo (by simp)
    · refine ih (chunkInv_pass st _ _ _ hi hn4 (by simp [appendedChunks]) ht hr hn) ?_ he hd
      intro h4 hmem
      have hbr : (loopBody eng vocab ctx smpl st).2 = false := hiff.mpr ⟨hmem, by omega⟩
      rw [hbr] at hgo
      exact absurd hgo (by simp)

/-- C4: for every run of `nativeGenerate` that reaches the generation loop and
in which no end marker is sampled and no decode step fails, with `n` the final
token count and `r` the final text: `r` is the text after `n` tokens; if the
loop stopped below the cap `min maxTokens 128` then `n >= 4` and `r` contains
a line break (so there is no newline stop below 4 tokens); at no count `k`
with `4 <= k < n` did the text after `k` tokens contain a line break (so the
loop stopped at the least such count); when the first three appended
fragments are "a", a line break and "b" and `maxTokens >= 4`, exactly 4 tokens
are generated; and `n` is at most the cap (0 for a negative cap). -/
theorem newline_stop (eng : Engine σ) (s : σ) (handle : Option LlamaContext)
    (prompt : String) (maxTokens : Int) (r : CStr) (n : Int)
    (hloop : (nativeGenerate eng s handle prompt maxTokens).loop = some (r, n))
    (heog : eogSampled (nativeGenerate eng s handle prompt maxTokens).trace = false)
    (hdec : decodeFailed (nativeGenerate eng s handle prompt maxTokens).trace = false) :
    r = textAfter n.toNat (nativeGenerate eng s handle prompt maxTokens).trace ∧
    (n < min maxTokens 128 → 4 ≤ n ∧ '\n' ∈ r) ∧
    (∀ k : Nat, 4 ≤ k → (k : Int) < n →
      '\n' ∉ textAfter k (nativeGenerate eng s handle prompt maxTokens).trace) ∧
    (4 ≤ maxTokens →
      (appendedChunks (nativeGenerate eng s handle prompt maxTokens).trace).take 3
        = [['a'], ['\n'], ['b']] → n = 4) ∧
    n ≤ max (min maxTokens 128) 0 := by
  have hcap : (if maxTokens < 128 then maxTokens else 128) = min maxTokens 128 := by
    split_ifs with h
    · exact (min_eq_left (le_of_lt h)).symm
    · exact (min_eq_right (not_lt.mp h)).symm
  rcases nativeGenerate_cases eng s handle prompt maxTokens with
    ⟨hnone, -, -⟩ | ⟨w, ctx, text, probe, cap, sized, batch, s0, -, -, heq⟩
  · rw [hnone] at hloop
    exact absurd hloop (by simp)
  · rw [heq] at hloop heog hdec ⊢
    obtain ⟨smpl, greedy, s2, fin, hfin, htr, -, hl⟩ :=
      generateAfterPrefill_spec eng w.vocab ctx s0
        (prefillTrace w.vocab ctx text probe cap sized batch) maxTokens
    rw [hl] at hloop
    simp only [Option.some.injEq, Prod.mk.injEq] at hloop
    obtain ⟨hr, hn⟩ := hloop
    rw [htr, eogSampled_append] at heog
    rw [htr, decodeFailed_append] at hdec
    simp only [Bool.or_eq_false_iff] at heog hdec
    rw [hcap] at hfin
    have hstart : ChunkInv
        ({ state := s2,
           trace := prefillTrace w.vocab ctx text probe cap sized batch ++
             [Call.sampler_chain_init true smpl, Call.sampler_init_greedy greedy,
              Call.sampler_chain_add smpl greedy],
           result := [], n_generated := 0 } : LoopState σ) := by
      refine ⟨by simp [appendedChunks, prefillTrace], by simp [appendedChunks, prefillTrace], ?_⟩
      intro k hk hlt
      simp only at hlt
      omega
    have key := generationLoop_newline eng w.vocab ctx smpl (min maxTokens 128) _ hstart
      (by intro h; simp only at h; omega) (by rw [← hfin]; exact heog.1)
      (by rw [← hfin]; exact hdec.1)
    rw [← hfin] at key
    obtain ⟨⟨k1, k2, k3⟩, k4⟩ := key
    have hle := generationLoop_count_le eng w.vocab ctx smpl (min maxTokens 128)
      { state := s2,
        trace := prefillTrace w.vocab ctx text probe cap sized batch ++
          [Call.sampler_chain_init true smpl, Call.sampler_init_greedy greedy,
           Call.sampler_chain_add smpl greedy],
        result := [], n_generated := 0 }
    rw [← hfin] at hle
    have hchunks : appendedChunks (fin.trace ++ [Call.sampler_free smpl])
        = appendedChunks fin.trace := by
      rw [appendedChunks_append]
      simp [appendedChunks]
    have hafter : ∀ k, textAfter k (fin.trace ++ [Call.sampler_free smpl])
        = textAfter k fin.trace := by
      intro k
      unfold textAfter
      rw [hchunks]
    rw [htr]
    subst hr hn
    have hmin : ∀ k : Nat, 4 ≤ k → (k : Int) < fin.n_generated →
        '\n' ∉ textAfter k (fin.trace ++ [Call.sampler_free smpl]) := by
      intro k hk hlt
      rw [hafter]
      exact k3 k hk hlt
    refine ⟨?_, k4, hmin, ?_, hle⟩
    · rw [hafter]
      unfold textAfter
      have hlen : fin.n_generated.toNat = (appendedChunks fin.trace).length := by omega
      rw [hlen, List.take_length]
      exact k1
    · intro h4 h3
      rw [hchunks] at h3
      have hge : 4 ≤ fin.n_generated := by
        by_cases hlt : fin.n_generated < min maxTokens 128
        · exact (k4 hlt).1
        · have : (4 : Int) ≤ min maxTokens 128 := le_min h4 (by norm_num)
          omega
      by_contra hne
      have hgt : ((4 : Nat) : Int) < fin.n_generated := by
        have : fin.n_generated ≠ 4 := hne
        omega
      have hno := k3 4 (le_refl 4) hgt
      apply hno
      unfold textAfter
      rw [List.mem_flatten]
      refine ⟨['\n'], ?_, by simp⟩
      have hmem : ['\n'] ∈ List.take 3 (appendedChunks fin.trace) := by
        rw [h3]
        simp
      have e : List.take 3 (appendedChunks fin.trace)
          = List.take 3 (List.take 4 (appendedChunks fin.trace)) := by
        rw [List.take_take]
        rfl
      rw [e] at hmem
      exact List.mem_of_mem_take hmem

/-- C4 at a concrete run: the toy engine emits "a", a line break, "b", "c" and
more; with `maxTokens = 50` the loop generates exactly 4 tokens. -/
theorem newline_stop_witness :
    (nativeGenerate (toyEngine (toyConfig scriptNewline fun _ => false)) []
        (some (toyHandle 512)) "x" 50).loop = some (['a', '\n', 'b', 'c'], 4) ∧
    eogSampled (nativeGenerate (toyEngine (toyConfig scriptNewline fun _ => false)) []
        (some (toyHandle 512)) "x" 50).trace = false ∧
    decodeFailed (nativeGenerate (toyEngine (toyConfig scriptNewline fun _ => false)) []
        (some (toyHandle 512)) "x" 50).trace = false ∧
    ((4 : Int) < min 50 128 → (4 : Int) ≤ 4 ∧ '\n' ∈ ['a', '\n', 'b', 'c']) :=
  have hloop : (nativeGenerate (toyEngine (toyConfig scriptNewline fun _ => false)) []
      (some (toyHandle 512)) "x" 50).loop = some (['a', '\n', 'b', 'c'], 4) := by
    simp only [nativeGenerate, generateAfterPrefill, generationLoop_eq_fuel]
    decide
  have heog : eogSampled (nativeGenerate (toyEngine (toyConfig scriptNewline fun _ => false)) []
      (some (toyHandle 512)) "x" 50).trace = false := by
    simp only [nativeGenerate, generateAfterPrefill, generationLoop_eq_fuel]
    decide
  have hdec : decodeFailed (nativeGenerate (toyEngine (toyConfig scriptNewline fun _ => false)) []
      (some (toyHandle 512)) "x" 50).trace = false := by
    simp only [nativeGenerate, generateAfterPrefill, generationLoop_eq_fuel]
    decide
  ⟨hloop, heog, hdec, (newline_stop _ _ _ _ _ _ _ hloop heog hdec).2.1⟩

/-! ## C5: an end marker as the first sampled token -/

theorem firstEog_append (a b : List Call) :
    firstEog (a ++ b) = (firstEog a).or (firstEog b) := by
  simp [firstEog, List.findSome?_append]

/-- Whenever the first end-marker test of a call of `nativeGenerate`
answers true (so the handle and the prompt were valid, tokenization and
prefill succeeded and `maxTokens >= 1`), the call returns the empty-result
signal "[No translation generated]" with an empty text and a zero count; no
token is accepted, none is detokenized, and the prefill is the only decode
step. -/
theorem nativeGenerate_eog_first (eng : Engine σ) (s : σ) (handle : Option LlamaContext)
    (prompt : String) (maxTokens : Int)
    (hfirst : firstEog (nativeGenerate eng s handle prompt maxTokens).trace = some true) :
    (nativeGenerate eng s handle prompt maxTokens).ret = some "[No translation generated]" ∧
    (nativeGenerate eng s handle prompt maxTokens).loop = some ([], 0) ∧
    acceptedTokens (nativeGenerate eng s handle prompt maxTokens).trace = [] ∧
    appendedChunks (nativeGenerate eng s handle prompt maxTokens).trace = [] ∧
    decodeCount (nativeGenerate eng s handle prompt maxTokens).trace = 1 ∧
    1 ≤ maxTokens := by
  rcases nativeGenerate_cases eng s handle prompt maxTokens with
    ⟨-, -, hnone, -⟩ | ⟨w, ctx, text, probe, cap, sized, batch, s0, -, -, heq⟩
  · rw [hnone] at hfirst
    exact absurd hfirst (by simp)
  · rw [heq] at hfirst ⊢
    obtain ⟨smpl, greedy, s2, fin, hfin, htr, hret, hl⟩ :=
      generateAfterPrefill_spec eng w.vocab ctx s0
        (prefillTrace w.vocab ctx text probe cap sized batch) maxTokens
    rw [htr] at hfirst ⊢
    rw [hret, hl]
    rw [generationLoop] at hfin
    by_cases h0 : (0 : Int) < (if maxTokens < 128 then maxTokens else 128)
    · simp only [h0, if_true] at hfin
      have h1 : 1 ≤ maxTokens := by
        split_ifs at h0 <;> omega
      obtain ⟨tok, len, buf, status, -, hc⟩ := loopBody_spec eng w.vocab ctx smpl
        { state := s2,
          trace := prefillTrace w.vocab ctx text probe cap sized batch ++
            [Call.sampler_chain_init true smpl, Call.sampler_init_greedy greedy,
             Call.sampler_chain_add smpl greedy],
          result := [], n_generated := 0 }
      rcases hc with ⟨-, hb, ht, hr, hn⟩ | ⟨ht, -⟩
      · simp only [hb, Bool.false_eq_true, dite_false] at hfin
        rw [hfin, ht, hr, hn]
        refine ⟨by simp, rfl, ?_, ?_, ?_, h1⟩
        · simp [acceptedTokens, prefillTrace]
        · simp [appendedChunks, prefillTrace]
        · simp [decodeCount, prefillTrace]
      · exfalso
        have hext : ∃ delta, fin.trace = (loopBody eng w.vocab ctx smpl
            { state := s2,
              trace := prefillTrace w.vocab ctx text probe cap sized batch ++
                [Call.sampler_chain_init true smpl, Call.sampler_init_greedy greedy,
                 Call.sampler_chain_add smpl greedy],
              result := [], n_generated := 0 }).1.trace ++ delta := by
          rw [hfin]
          by_cases hgo : (loopBody eng w.vocab ctx smpl
            { state := s2,
              trace := prefillTrace w.vocab ctx text probe cap sized batch ++
                [Call.sampler_chain_init true smpl, Call.sampler_init_greedy greedy,
                 Call.sampler_chain_add smpl greedy],
              result := [], n_generated := 0 }).2 = true
          · simp only [hgo, dite_true]
            exact generationLoop_trace eng w.vocab ctx smpl _ _
          · simp only [hgo, dite_false]
            exact ⟨[], by simp⟩
        obtain ⟨delta, hd⟩ := hext
        rw [hd, ht] at hfirst
        simp [firstEog_append, firstEog, prefillTrace] at hfirst
    · exfalso
      simp only [h0, if_false] at hfin
      rw [hfin] at hfirst
      simp [firstEog_append, firstEog, prefillTrace] at hfirst

/-- After a successful prefill and with `maxTokens >= 1`, when the first
sampled token is an end marker the rest of `nativeGenerate` makes exactly six
engine calls: the three that build the sampler, the sample, the end-marker
test and the release of the sampler; it returns the empty-result signal. -/
theorem generateAfterPrefill_eog_first (eng : Engine σ) (vocab : VocabRef) (ctx : CtxRef)
    (s0 : σ) (trace : List Call) (maxTokens : Int) (hmax : 1 ≤ maxTokens)
    (heog : eng.llama_vocab_is_eog vocab
      (eng.llama_sampler_sample
        (eng.llama_sampler_chain_add
          (eng.llama_sampler_init_greedy (eng.llama_sampler_chain_init s0 true).1).1
          (eng.llama_sampler_chain_init s0 true).2
          (eng.llama_sampler_init_greedy (eng.llama_sampler_chain_init s0 true).1).2)
        (eng.llama_sampler_chain_init s0 true).2 ctx).2 = true) :
    (generateAfterPrefill eng vocab ctx s0 trace maxTokens).ret
      = some "[No translation generated]" ∧
    firstEog (generateAfterPrefill eng vocab ctx s0 trace maxTokens).trace
      = (firstEog trace).or (some true) ∧
    ∃ smpl greedy tok,
      (generateAfterPrefill eng vocab ctx s0 trace maxTokens).trace =
        trace ++ [Call.sampler_chain_init true smpl, Call.sampler_init_greedy greedy,
          Call.sampler_chain_add smpl greedy, Call.sampler_sample smpl ctx tok,
          Call.vocab_is_eog vocab tok true, Call.sampler_free smpl] := by
  have h0 : (0 : Int) < (if maxTokens < 128 then maxTokens else 128) := by
    split_ifs <;> omega
  have hbody : ∀ st : LoopState σ,
      st.state = eng.llama_sampler_chain_add
        (eng.llama_sampler_init_greedy (eng.llama_sampler_chain_init s0 true).1).1
        (eng.llama_sampler_chain_init s0 true).2
        (eng.llama_sampler_init_greedy (eng.llama_sampler_chain_init s0 true).1).2 →
      loopBody eng vocab ctx (eng.llama_sampler_chain_init s0 true).2 st =
        ({ st with
            state := (eng.llama_sampler_sample st.state
              (eng.llama_sampler_chain_init s0 true).2 ctx).1,
            trace := st.trace ++
              [Call.sampler_sample (eng.llama_sampler_chain_init s0 true).2 ctx
                  (eng.llama_sampler_sample st.state
                    (eng.llama_sampler_chain_init s0 true).2 ctx).2,
               Call.vocab_is_eog vocab
                  (eng.llama_sampler_sample st.state
                    (eng.llama_sampler_chain_init s0 true).2 ctx).2 true] }, false) := by
    intro st hst
    rw [← hst] at heog
    unfold loopBody
    simp only [heog, if_true]
  unfold generateAfterPrefill
  dsimp only
  rw [generationLoop]
  simp only [h0, if_true]
  rw [hbody _ rfl]
  simp only [Bool.false_eq_true, dite_false]
  refine ⟨?_, ?_, (eng.llama_sampler_chain_init s0 true).2,
    (eng.llama_sampler_init_greedy (eng.llama_sampler_chain_init s0 true).1).2,
    (eng.llama_sampler_sample
      (eng.llama_sampler_chain_add
        (eng.llama_sampler_init_greedy (eng.llama_sampler_chain_init s0 true).1).1
        (eng.llama_sampler_chain_init s0 true).2
        (eng.llama_sampler_init_greedy (eng.llama_sampler_chain_init s0 true).1).2)
      (eng.llama_sampler_chain_init s0 true).2 ctx).2, ?_⟩
  · simp
  · simp [firstEog, List.findSome?_append]
  · simp

/-- C5: (1) after a successful tokenization and prefill and with
`maxTokens >= 1`, when the first sampled token is an end marker,
`nativeGenerate` returns the empty-result signal "[No translation generated]"
after these engine calls only: the three that build the sampler, the sample,
the end-marker test and the release of the sampler; (2) for every call of
`nativeGenerate` whose first end-marker test answers true, the result is that
signal, the text is empty and the count zero, no token is accepted, none is
detokenized, and the prefill is the only decode step. -/
theorem eog_first_gives_signal (eng : Engine σ) (maxTokens : Int) :
    (∀ (vocab : VocabRef) (ctx : CtxRef) (s0 : σ) (trace : List Call),
      1 ≤ maxTokens →
      eng.llama_vocab_is_eog vocab
        (eng.llama_sampler_sample
          (eng.llama_sampler_chain_add
            (eng.llama_sampler_init_greedy (eng.llama_sampler_chain_init s0 true).1).1
            (eng.llama_sampler_chain_init s0 true).2
            (eng.llama_sampler_init_greedy (eng.llama_sampler_chain_init s0 true).1).2)
          (eng.llama_sampler_chain_init s0 true).2 ctx).2 = true →
      (generateAfterPrefill eng vocab ctx s0 trace maxTokens).ret
        = some "[No translation generated]" ∧
      firstEog (generateAfterPrefill eng vocab ctx s0 trace maxTokens).trace
        = (firstEog trace).or (some true) ∧
      ∃ smpl greedy tok,
        (generateAfterPrefill eng vocab ctx s0 trace maxTokens).trace =
          trace ++ [Call.sampler_chain_init true smpl, Call.sampler_init_greedy greedy,
            Call.sampler_chain_add smpl greedy, Call.sampler_sample smpl ctx tok,
            Call.vocab_is_eog vocab tok true, Call.sampler_free smpl]) ∧
    (∀ (s : σ) (handle : Option LlamaContext) (prompt : String),
      firstEog (nativeGenerate eng s handle prompt maxTokens).trace = some true →
      (nativeGenerate eng s handle prompt maxTokens).ret
        = some "[No translation generated]" ∧
      (nativeGenerate eng s handle prompt maxTokens).loop = some ([], 0) ∧
      acceptedTokens (nativeGenerate eng s handle prompt maxTokens).trace = [] ∧
      appendedChunks (nativeGenerate eng s handle prompt maxTokens).trace = [] ∧
      decodeCount (nativeGenerate eng s handle prompt maxTokens).trace = 1 ∧
      1 ≤ maxTokens) :=
  ⟨fun vocab ctx s0 trace hmax heog =>
      generateAfterPrefill_eog_first eng vocab ctx s0 trace maxTokens hmax heog,
    fun s handle prompt hfirst =>
      nativeGenerate_eog_first eng s handle prompt maxTokens hfirst⟩

/-- C5 at a concrete run: the toy engine samples the end marker at once. -/
theorem eog_first_gives_signal_witness :
    firstEog (nativeGenerate (toyEngine (toyConfig scriptEog fun _ => false)) []
        (some (toyHandle 512)) "x" 50).trace = some true ∧
    (nativeGenerate (toyEngine (toyConfig scriptEog fun _ => false)) []
        (some (toyHandle 512)) "x" 50).ret = some "[No translation generated]" :=
  have hfirst : firstEog (nativeGenerate (toyEngine (toyConfig scriptEog fun _ => false)) []
      (some (toyHandle 512)) "x" 50).trace = some true := by
    simp only [nativeGenerate, generateAfterPrefill, generationLoop_eq_fuel]
    decide
  ⟨hfirst, ((eog_first_gives_signal _ 50).2 _ _ _ hfirst).1⟩

/-! ## C6 and C1: the size of the prefill -/

/-- The vector the sized tokenization leaves behind, when the engine wrote the
full tokenization into a buffer of exactly that size. -/
theorem vector_exact (full written : List Token)
    (hw : written.take full.length = full) :
    vectorResize (vectorWrite (List.replicate full.length 0) written) full.length = full := by
  have hlen : full.length ≤ written.length := by
    have h := congrArg List.length hw
    rw [List.length_take] at h
    omega
  unfold vectorResize vectorWrite
  rw [List.length_replicate, hw, List.drop_eq_nil_of_le (by rw [List.length_replicate]; exact hlen),
    List.append_nil, List.take_length, Nat.sub_self]
  simp

/-- A call with a valid handle and prompt whose probe and sized tokenization
behave as the contract says for a tokenization of `t` tokens, `0 < t < n_ctx`,
clears the cache and submits exactly these tokens to the prefill decode
step. -/
theorem nativeGenerate_prefill (eng : Engine σ) (s : σ) (w : LlamaContext) (ctx : CtxRef)
    (model : ModelRef) (prompt : String) (maxTokens : Int) (promptStr : CStr)
    (full : List Token)
    (hctx : w.ctx = some ctx) (hmodel : w.model = some model)
    (hstr : eng.GetStringUTFChars prompt = some promptStr)
    (hcontract : TokenizeContract eng w.vocab promptStr full)
    (hpos : 0 < full.length) (hlt : (full.length : Int) < w.n_ctx) :
    ∃ res rest, (nativeGenerate eng s (some w) prompt maxTokens).trace =
      [Call.tokenize w.vocab promptStr 0 (-(full.length : Int)),
       Call.tokenize w.vocab promptStr full.length full.length,
       Call.memory_clear ctx, Call.decode ctx full res] ++ rest := by
  have hprobe : (eng.llama_tokenize w.vocab promptStr 0 true true).1 = -(full.length : Int) :=
    (hcontract 0).2 hpos
  have hneeded : neededTokens (-(full.length : Int)) w.n_ctx = full.length := by
    unfold neededTokens
    have h1 : -(full.length : Int) < 0 := by omega
    simp only [h1, if_true, neg_neg]
    have h2 : ¬ (full.length : Int) ≥ w.n_ctx := by omega
    simp only [h2, if_false]
  have hsized := (hcontract full.length).1 (le_refl _)
  generalize hout : nativeGenerate eng s (some w) prompt maxTokens = out
  unfold nativeGenerate at hout
  simp only [hctx, hmodel, hstr, hprobe, hneeded, Int.toNat_ofNat, List.length_replicate,
    hsized.1] at hout
  have hz : ¬ (-(full.length : Int) = 0) := by omega
  have hn : ¬ ((full.length : Int) < 0) := by omega
  simp only [hz, hn, if_false, vector_exact full _ hsized.2] at hout
  by_cases hd : (eng.llama_decode (eng.llama_memory_clear s ctx) ctx full).2 = 0
  · simp only [hd, ne_eq, not_true_eq_false, if_false] at hout
    obtain ⟨smpl, greedy, s2, fin, hfin, htr, -, -⟩ :=
      generateAfterPrefill_spec eng w.vocab ctx
        (eng.llama_decode (eng.llama_memory_clear s ctx) ctx full).1
        ([Call.tokenize w.vocab promptStr 0 (-(full.length : Int))] ++
          [Call.tokenize w.vocab promptStr full.length full.length] ++
          [Call.memory_clear ctx, Call.decode ctx full 0]) maxTokens
    obtain ⟨delta, hdelta⟩ := generationLoop_trace eng w.vocab ctx smpl
      (if maxTokens < 128 then maxTokens else 128)
      { state := s2,
        trace := [Call.tokenize w.vocab promptStr 0 (-(full.length : Int))] ++
          [Call.tokenize w.vocab promptStr full.length full.length] ++
          [Call.memory_clear ctx, Call.decode ctx full 0] ++
          [Call.sampler_chain_init true smpl, Call.sampler_init_greedy greedy,
           Call.sampler_chain_add smpl greedy],
        result := [], n_generated := 0 }
    rw [← hfin] at hdelta
    rw [← hout, htr, hdelta]
    exact ⟨0, _, by simp only [List.cons_append, List.nil_append, List.append_assoc]; rfl⟩
  · simp only [hd, ne_eq, not_false_eq_true, if_true] at hout
    rw [← hout]
    exact ⟨(eng.llama_decode (eng.llama_memory_clear s ctx) ctx full).2, [], by simp⟩

/-- C6: for every valid handle with context size `n_ctx` and every prompt whose
tokenization `full` has `t` tokens, `0 < t < n_ctx - 64`, with a tokenizer that
follows its contract: `nativeGenerate` sizes the token buffer to `t`, and the
batch it submits to the prefill decode step is `full`, all `t` tokens. -/
theorem short_prompt_not_truncated (eng : Engine σ) (s : σ) (w : LlamaContext) (ctx : CtxRef)
    (model : ModelRef) (prompt : String) (maxTokens : Int) (promptStr : CStr)
    (full : List Token)
    (hctx : w.ctx = some ctx) (hmodel : w.model = some model)
    (hstr : eng.GetStringUTFChars prompt = some promptStr)
    (hcontract : TokenizeContract eng w.vocab promptStr full)
    (hpos : 0 < full.length) (hlt : (full.length : Int) < w.n_ctx - 64) :
    prefillBatch (nativeGenerate eng s (some w) prompt maxTokens).trace = some full ∧
    (∃ res rest, (nativeGenerate eng s (some w) prompt maxTokens).trace =
      [Call.tokenize w.vocab promptStr 0 (-(full.length : Int)),
       Call.tokenize w.vocab promptStr full.length full.length,
       Call.memory_clear ctx, Call.decode ctx full res] ++ rest) := by
  obtain ⟨res, rest, h⟩ := nativeGenerate_prefill eng s w ctx model prompt maxTokens promptStr
    full hctx hmodel hstr hcontract hpos (by omega)
  refine ⟨?_, res, rest, h⟩
  rw [h]
  simp [prefillBatch]

/-- The tokenizer of the toy engine follows the contract of `tokenize`. -/
theorem toy_tokenize_contract (cfg : ToyConfig) (vocab : VocabRef) (text : CStr) :
    TokenizeContract (toyEngine cfg) vocab text (toyTokens text) := by
  intro cap
  constructor
  · intro h
    simp [toyEngine, toyTokenize, h]
  · intro h
    have h2 : ¬ (toyTokens text).length ≤ cap := by omega
    simp [toyEngine, toyTokenize, h2]

/-- C6 at a concrete run: the prompt "x" has the two tokens 1 and 120, the
context has 512, and both tokens are submitted to the prefill. -/
theorem short_prompt_not_truncated_witness :
    TokenizeContract (toyEngine (toyConfig scriptEog fun _ => false)) 1 ['x'] [1, 120] ∧
    ((2 : Nat) : Int) < 512 - 64 ∧
    prefillBatch (nativeGenerate (toyEngine (toyConfig scriptEog fun _ => false)) []
      (some (toyHandle 512)) "x" 50).trace = some [1, 120] :=
  ⟨toy_tokenize_contract _ 1 ['x'], by decide,
    (short_prompt_not_truncated (toyEngine (toyConfig scriptEog fun _ => false)) []
      (toyHandle 512) 1 1 "x" 50 ['x'] [1, 120] rfl rfl rfl
      (toy_tokenize_contract _ 1 ['x']) (by decide) (by decide)).1⟩

/-- With a tokenizer that follows its contract, a prompt that needs at least
`n_ctx` tokens (and a context of at least 64) never reaches the prefill: the
buffer is sized to `n_ctx - 64`, the sized tokenization reports the negated
count, and the call returns "[Error: tokenization failed]". -/
theorem nativeGenerate_truncation (eng : Engine σ) (s : σ) (w : LlamaContext) (ctx : CtxRef)
    (model : ModelRef) (prompt : String) (maxTokens : Int) (promptStr : CStr)
    (full : List Token)
    (hctx : w.ctx = some ctx) (hmodel : w.model = some model)
    (hstr : eng.GetStringUTFChars prompt = some promptStr)
    (hcontract : TokenizeContract eng w.vocab promptStr full)
    (hge : w.n_ctx ≤ (full.length : Int)) (h64 : 64 ≤ w.n_ctx) :
    (nativeGenerate eng s (some w) prompt maxTokens).ret
      = some "[Error: tokenization failed]" ∧
    (nativeGenerate eng s (some w) prompt maxTokens).trace =
      [Call.tokenize w.vocab promptStr 0 (-(full.length : Int)),
       Call.tokenize w.vocab promptStr (w.n_ctx - 64).toNat (-(full.length : Int))] ∧
    prefillBatch (nativeGenerate eng s (some w) prompt maxTokens).trace = none := by
  have hpos : 0 < full.length := by omega
  have hprobe : (eng.llama_tokenize w.vocab promptStr 0 true true).1 = -(full.length : Int) :=
    (hcontract 0).2 hpos
  have hneeded : neededTokens (-(full.length : Int)) w.n_ctx = w.n_ctx - 64 := by
    unfold neededTokens
    have h1 : -(full.length : Int) < 0 := by omega
    simp only [h1, if_true, neg_neg]
    have h2 : (full.length : Int) ≥ w.n_ctx := hge
    simp only [h2, if_true]
  have hsized := (hcontract (w.n_ctx - 64).toNat).2 (by omega)
  generalize hout : nativeGenerate eng s (some w) prompt maxTokens = out
  unfold nativeGenerate at hout
  simp only [hctx, hmodel, hstr, hprobe, hneeded, List.length_replicate, hsized] at hout
  have hz : ¬ (-(full.length : Int) = 0) := by omega
  have hn : ¬ (w.n_ctx - 64 < 0) := by omega
  have hneg : -(full.length : Int) < 0 := by omega
  simp only [hz, hn, hneg, if_false, if_true] at hout
  rw [← hout]
  simp [prefillBatch]

/-- C1, the code at a failing input: with the toy engine, whose tokenizer
follows the contract, a context of 512 tokens and a prompt of 599 characters
(600 tokens), `nativeGenerate` returns "[Error: tokenization failed]" and
submits nothing to a decode step, instead of a prefill of 448 tokens. -/
theorem long_prompt_fails :
    (toyTokens (List.replicate 599 'a')).length = 600 ∧
    (nativeGenerate (toyEngine (toyConfig scriptEog fun _ => false)) []
      (some (toyHandle 512)) (String.mk (List.replicate 599 'a')) 50).ret
        = some "[Error: tokenization failed]" ∧
    prefillBatch (nativeGenerate (toyEngine (toyConfig scriptEog fun _ => false)) []
      (some (toyHandle 512)) (String.mk (List.replicate 599 'a')) 50).trace = none := by
  have hlen : (toyTokens (List.replicate 599 'a')).length = 600 := by
    simp [toyTokens]
  have h := nativeGenerate_truncation (toyEngine (toyConfig scriptEog fun _ => false)) []
    (toyHandle 512) 1 1 (String.mk (List.replicate 599 'a')) 50 (List.replicate 599 'a')
    (toyTokens (List.replicate 599 'a')) rfl rfl rfl (toy_tokenize_contract _ _ _)
    (by rw [hlen]; decide) (by decide)
  exact ⟨hlen, h.1, h.2.2⟩

/-! ## C7: the text and the fragments of the accepted tokens -/

/-- With a detokenizer that follows its contract, the chunk the loop body
appends for a token is its fragment when that fits the 255-byte buffer, and
nothing when it does not. -/
theorem chunk_eq_fragment (eng : Engine σ) (vocab : VocabRef) (frag : Token → CStr)
    (hc : DetokenizeContract eng vocab frag) (tok : Token) (len : Int) (buf : CStr)
    (h : (len, buf) = eng.llama_token_to_piece vocab tok 255 0 true) :
    (if len > 0 then buf.take len.toNat else [])
      = (if (frag tok).length ≤ 255 then frag tok else []) := by
  have hlen : len = (eng.llama_token_to_piece vocab tok 255 0 true).1 := congrArg Prod.fst h
  have hbuf : buf = (eng.llama_token_to_piece vocab tok 255 0 true).2 := congrArg Prod.snd h
  by_cases hfit : (frag tok).length ≤ 255
  · obtain ⟨h1, h2⟩ := (hc tok 255).1 hfit
    rw [← hlen] at h1
    rw [← hbuf] at h2
    simp only [hfit, if_true]
    by_cases hz : (frag tok).length = 0
    · have : ¬ len > 0 := by omega
      simp only [this, if_false]
      exact (List.length_eq_zero.mp hz).symm
    · have hp : len > 0 := by omega
      simp only [hp, if_true]
      rw [h1, Int.toNat_ofNat, h2]
  · have h1 := (hc tok 255).2 (by omega)
    rw [← hlen] at h1
    have : ¬ len > 0 := by omega
    simp only [this, hfit, if_false]

theorem fittingText_append (frag : Token → CStr) (a b : List Token) :
    fittingText frag (a ++ b) = fittingText frag a ++ fittingText frag b := by
  simp [fittingText]

/-- With a detokenizer that follows its contract, the loop only appends to the
text, and what it appends is the concatenation, in order, of the fragments of
the tokens it accepted that fit the buffer. -/
theorem generationLoop_text (eng : Engine σ) (vocab : VocabRef) (frag : Token → CStr)
    (hc : DetokenizeContract eng vocab frag) (ctx : CtxRef) (smpl : SamplerRef)
    (actualMax : Int) (st0 : LoopState σ) :
    ∃ delta, (generationLoop eng vocab ctx smpl actualMax st0).trace = st0.trace ++ delta ∧
      (generationLoop eng vocab ctx smpl actualMax st0).result
        = st0.result ++ fittingText frag (acceptedTokens delta) := by
  refine generationLoop_induct eng vocab ctx smpl actualMax
    (fun st fin => ∃ delta, fin.trace = st.trace ++ delta ∧
      fin.result = st.result ++ fittingText frag (acceptedTokens delta)) ?_ ?_ ?_ st0
  · intro st _
    exact ⟨[], by simp [fittingText, acceptedTokens]⟩
  · intro st _ _
    obtain ⟨tok, len, buf, status, hp, hcase⟩ := loopBody_spec eng vocab ctx smpl st
    rcases hcase with ⟨-, -, ht, hr, -⟩ | ⟨ht, hr, -⟩
    · exact ⟨_, ht, by simp [hr, fittingText, acceptedTokens]⟩
    · refine ⟨_, ht, ?_⟩
      rw [hr, chunk_eq_fragment eng vocab frag hc tok len buf hp]
      simp [fittingText, acceptedTokens]
  · intro st fin _ _ ih
    obtain ⟨d, hd, hres⟩ := ih
    obtain ⟨tok, len, buf, status, hp, hcase⟩ := loopBody_spec eng vocab ctx smpl st
    rcases hcase with ⟨-, -, ht, hr, -⟩ | ⟨ht, hr, -⟩
    · refine ⟨_, by rw [hd, ht, List.append_assoc], ?_⟩
      rw [hres, hr, acceptedTokens_append, fittingText_append]
      simp [fittingText, acceptedTokens]
    · refine ⟨_, by rw [hd, ht, List.append_assoc], ?_⟩
      rw [hres, hr, chunk_eq_fragment eng vocab frag hc tok len buf hp,
        acceptedTokens_append, fittingText_append]
      simp [fittingText, acceptedTokens]

/-- The detokenizer of the toy engine follows the contract of `detokenize`. -/
theorem toy_detokenize_contract (cfg : ToyConfig) (vocab : VocabRef) :
    DetokenizeContract (toyEngine cfg) vocab toyPiece := by
  have hr : ∀ tok, toyRender tok 0 = toyPiece tok := fun _ => rfl
  intro tok cap
  constructor
  · intro h
    simp [toyEngine, hr, h]
  · intro h
    have h2 : ¬ (toyPiece tok).length ≤ cap := by omega
    simp only [toyEngine, hr, h2, if_false]
    omega

/-- C7, counterexample: the toy engine, whose detokenizer follows the contract,
samples the token 14, whose fragment has 256 bytes, and then the end marker.
Token 14 is accepted and counted, its fragment is not empty, and yet the text
stays empty and the empty-result signal is returned. -/
theorem fragment_dropped_counterexample :
    acceptedTokens (nativeGenerate (toyEngine (toyConfig scriptLong fun _ => false)) []
        (some (toyHandle 512)) "x" 50).trace = [14] ∧
    (toyPiece 14).length = 256 ∧
    (nativeGenerate (toyEngine (toyConfig scriptLong fun _ => false)) []
        (some (toyHandle 512)) "x" 50).loop = some ([], 1) ∧
    (nativeGenerate (toyEngine (toyConfig scriptLong fun _ => false)) []
        (some (toyHandle 512)) "x" 50).ret = some "[No translation generated]" ∧
    DetokenizeContract (toyEngine (toyConfig scriptLong fun _ => false))
      (toyHandle 512).vocab toyPiece := by
  refine ⟨?_, by decide, ?_, ?_, toy_detokenize_contract _ _⟩ <;>
    simp only [nativeGenerate, generateAfterPrefill, generationLoop_eq_fuel] <;>
    decide

/-- C7, amended: with a detokenizer that follows its contract, (1) from every
state and on every way out of it the generation loop only appends to the text,
and what it appends is the concatenation, in sampling order, of the fragments
of the tokens it accepted, the one whose decode step failed included, except
that a fragment longer than the 255 bytes given to the detokenizer is left
out; (2) for every run of `nativeGenerate` that reaches the loop the final
text is that concatenation over all accepted tokens, and when it is not empty
it is the returned result (stated for a text without NUL byte, which
`result.c_str()` hands to `NewStringUTF` whole). -/
theorem text_is_fitting_fragments (eng : Engine σ) (w : LlamaContext) (frag : Token → CStr)
    (hc : DetokenizeContract eng w.vocab frag) :
    (∀ (ctx : CtxRef) (smpl : SamplerRef) (actualMax : Int) (st : LoopState σ),
      ∃ delta, (generationLoop eng w.vocab ctx smpl actualMax st).trace = st.trace ++ delta ∧
        (generationLoop eng w.vocab ctx smpl actualMax st).result
          = st.result ++ fittingText frag (acceptedTokens delta)) ∧
    (∀ (s : σ) (prompt : String) (maxTokens : Int) (r : CStr) (n : Int),
      (nativeGenerate eng s (some w) prompt maxTokens).loop = some (r, n) →
      r = fittingText frag
            (acceptedTokens (nativeGenerate eng s (some w) prompt maxTokens).trace) ∧
      (r ≠ [] → '\x00' ∉ r →
        (nativeGenerate eng s (some w) prompt maxTokens).ret = some (String.mk r))) := by
  refine ⟨fun ctx smpl actualMax st =>
    generationLoop_text eng w.vocab frag hc ctx smpl actualMax st, ?_⟩
  intro s prompt maxTokens r n hloop
  rcases nativeGenerate_cases eng s (some w) prompt maxTokens with
    ⟨hnone, -, -⟩ | ⟨w1, ctx, text, probe, cap, sized, batch, s0, hw, -, heq⟩
  · rw [hnone] at hloop
    exact absurd hloop (by simp)
  · have hw1 : w1 = w := (Option.some.inj hw).symm
    subst hw1
    rw [heq] at hloop ⊢
    obtain ⟨smpl, greedy, s2, fin, hfin, htr, hret, hl⟩ :=
      generateAfterPrefill_spec eng w1.vocab ctx s0
        (prefillTrace w1.vocab ctx text probe cap sized batch) maxTokens
    rw [hl] at hloop
    simp only [Option.some.injEq, Prod.mk.injEq] at hloop
    obtain ⟨hr, -⟩ := hloop
    obtain ⟨delta, hd, hres⟩ := generationLoop_text eng w1.vocab frag hc ctx smpl
      (if maxTokens < 128 then maxTokens else 128)
      { state := s2,
        trace := prefillTrace w1.vocab ctx text probe cap sized batch ++
          [Call.sampler_chain_init true smpl, Call.sampler_init_greedy greedy,
           Call.sampler_chain_add smpl greedy],
        result := [], n_generated := 0 }
    rw [← hfin] at hd hres
    refine ⟨?_, ?_⟩
    · rw [← hr, hres, htr, hd]
      simp [acceptedTokens_append, fittingText_append, fittingText, acceptedTokens,
        prefillTrace]
    · intro hne hnul
      rw [hret, hr]
      simp [hne, c_str_of_no_nul r hnul, NewStringUTF]

/-- C7, amended, at a concrete run: the toy engine generates the fragment
" d", with its leading blank, and "a"; the final text is the concatenation of
the two fragments and is returned. -/
theorem text_is_fitting_fragments_witness :
    DetokenizeContract (toyEngine (toyConfig scriptBlank fun _ => false))
      (toyHandle 512).vocab toyPiece ∧
    (nativeGenerate (toyEngine (toyConfig scriptBlank fun _ => false)) []
        (some (toyHandle 512)) "x" 50).loop = some ([' ', 'd', 'a'], 2) ∧
    [' ', 'd', 'a'] = fittingText toyPiece
      (acceptedTokens (nativeGenerate (toyEngine (toyConfig scriptBlank fun _ => false)) []
        (some (toyHandle 512)) "x" 50).trace) ∧
    (nativeGenerate (toyEngine (toyConfig scriptBlank fun _ => false)) []
        (some (toyHandle 512)) "x" 50).ret = some " da" :=
  have hloop : (nativeGenerate (toyEngine (toyConfig scriptBlank fun _ => false)) []
      (some (toyHandle 512)) "x" 50).loop = some ([' ', 'd', 'a'], 2) := by
    simp only [nativeGenerate, generateAfterPrefill, generationLoop_eq_fuel]
    decide
  ⟨toy_detokenize_contract _ _, hloop,
    ((text_is_fitting_fragments (toyEngine (toyConfig scriptBlank fun _ => false))
      (toyHandle 512) toyPiece (toy_detokenize_contract _ _)).2 [] "x" 50 _ _ hloop).1,
    ((text_is_fitting_fragments (toyEngine (toyConfig scriptBlank fun _ => false))
      (toyHandle 512) toyPiece (toy_detokenize_contract _ _)).2 [] "x" 50 _ _ hloop).2
      (by decide) (by decide)⟩

/-! ## C8: the residual decode cache -/

theorem cacheCalls_append (a b : List Call) :
    cacheCalls (a ++ b) = cacheCalls a ++ cacheCalls b := by
  simp [cacheCalls, List.filter_append]

/-- The loop touches the decode cache by decode steps on its context only. -/
theorem generationLoop_cache (eng : Engine σ) (vocab : VocabRef) (ctx : CtxRef)
    (smpl : SamplerRef) (actualMax : Int) (st0 : LoopState σ) :
    ∃ delta, (generationLoop eng vocab ctx smpl actualMax st0).trace = st0.trace ++ delta ∧
      (cacheCalls delta).all (decodesOn ctx) = true := by
  refine generationLoop_induct eng vocab ctx smpl actualMax
    (fun st fin => ∃ delta, fin.trace = st.trace ++ delta ∧
      (cacheCalls delta).all (decodesOn ctx) = true) ?_ ?_ ?_ st0
  · intro st _
    exact ⟨[], by simp, by simp [cacheCalls]⟩
  · intro st _ _
    obtain ⟨tok, len, buf, status, -, hc⟩ := loopBody_spec eng vocab ctx smpl st
    rcases hc with ⟨-, -, ht, -⟩ | ⟨ht, -⟩
    · exact ⟨_, ht, by simp [cacheCalls]⟩
    · exact ⟨_, ht, by simp [cacheCalls, decodesOn]⟩
  · intro st fin _ _ ih
    obtain ⟨d, hd, hall⟩ := ih
    obtain ⟨tok, len, buf, status, -, hc⟩ := loopBody_spec eng vocab ctx smpl st
    rcases hc with ⟨-, -, ht, -⟩ | ⟨ht, -⟩
    · refine ⟨_, by rw [hd, ht, List.append_assoc], ?_⟩
      rw [cacheCalls_append, List.all_append, hall]
      simp [cacheCalls]
    · refine ⟨_, by rw [hd, ht, List.append_assoc], ?_⟩
      rw [cacheCalls_append, List.all_append, hall]
      simp [cacheCalls, decodesOn]

/-- In every call of `nativeGenerate` with a handle whose context is `ctx`, the
first call that touches a decode cache clears the cache of `ctx`, and every
decode step runs on `ctx`. -/
theorem nativeGenerate_cleared (eng : Engine σ) (s : σ) (w : LlamaContext) (ctx : CtxRef)
    (prompt : String) (maxTokens : Int) (hctx : w.ctx = some ctx) :
    clearedBeforeDecode ctx (nativeGenerate eng s (some w) prompt maxTokens).trace = true := by
  rcases nativeGenerate_cases eng s (some w) prompt maxTokens with
    ⟨-, -, -, hcl⟩ | ⟨w1, ctx1, text, probe, cap, sized, batch, s0, hw, hctx1, heq⟩
  · exact hcl w ctx rfl hctx
  · have hw1 : w1 = w := (Option.some.inj hw).symm
    subst hw1
    have hc1 : ctx1 = ctx := Option.some.inj (hctx1.symm.trans hctx)
    subst hc1
    rw [heq]
    obtain ⟨smpl, greedy, s2, fin, hfin, htr, -, -⟩ :=
      generateAfterPrefill_spec eng w1.vocab ctx1 s0
        (prefillTrace w1.vocab ctx1 text probe cap sized batch) maxTokens
    obtain ⟨delta, hdelta, hall⟩ := generationLoop_cache eng w1.vocab ctx1 smpl
      (if maxTokens < 128 then maxTokens else 128)
      { state := s2,
        trace := prefillTrace w1.vocab ctx1 text probe cap sized batch ++
          [Call.sampler_chain_init true smpl, Call.sampler_init_greedy greedy,
           Call.sampler_chain_add smpl greedy],
        result := [], n_generated := 0 }
    rw [← hfin] at hdelta
    have e1 : cacheCalls (prefillTrace w1.vocab ctx1 text probe cap sized batch)
        = [Call.memory_clear ctx1, Call.decode ctx1 batch 0] := by
      simp [cacheCalls, prefillTrace]
    have e2 : cacheCalls [Call.sampler_chain_init true smpl, Call.sampler_init_greedy greedy,
        Call.sampler_chain_add smpl greedy] = [] := by
      simp [cacheCalls]
    have e3 : cacheCalls [Call.sampler_free smpl] = [] := by
      simp [cacheCalls]
    rw [htr, hdelta]
    unfold clearedBeforeDecode
    simp only [cacheCalls_append, e1, e2, e3, List.append_nil, List.cons_append,
      List.nil_append, List.all_cons, hall]
    simp [decodesOn]

/-- C8: for every engine, every handle whose decode context is `ctx`, every
prompt and `maxTokens`, and any two engine states that differ at most in the
contents of the decode cache of `ctx` (clearing that cache makes them equal),
`nativeGenerate` makes the same engine calls with the same results and returns
the same string; in every such call the first call that touches a decode
cache clears the cache of `ctx`, before the prefill, and every decode step
runs on `ctx`. -/
theorem result_independent_of_cache (eng : Engine σ) (s1 s2 : σ) (w : LlamaContext)
    (ctx : CtxRef) (prompt : String) (maxTokens : Int) (hctx : w.ctx = some ctx)
    (hclear : eng.llama_memory_clear s1 ctx = eng.llama_memory_clear s2 ctx) :
    (nativeGenerate eng s1 (some w) prompt maxTokens).ret
      = (nativeGenerate eng s2 (some w) prompt maxTokens).ret ∧
    (nativeGenerate eng s1 (some w) prompt maxTokens).trace
      = (nativeGenerate eng s2 (some w) prompt maxTokens).trace ∧
    (nativeGenerate eng s1 (some w) prompt maxTokens).loop
      = (nativeGenerate eng s2 (some w) prompt maxTokens).loop ∧
    clearedBeforeDecode ctx (nativeGenerate eng s1 (some w) prompt maxTokens).trace = true := by
  refine ⟨?_, ?_, ?_, nativeGenerate_cleared eng s1 w ctx prompt maxTokens hctx⟩
  all_goals
    cases hm : w.model with
    | none => simp [nativeGenerate, hctx, hm]
    | some model =>
      cases hs : eng.GetStringUTFChars prompt with
      | none => simp [nativeGenerate, hctx, hm, hs]
      | some promptStr =>
        simp only [nativeGenerate, hctx, hm, hs, hclear]
        split_ifs <;> rfl

/-- C8 at a concrete pair of states: the toy engine with the residual cache
`[9, 9]` and with an empty cache returns the same string. -/
theorem result_independent_of_cache_witness :
    ([9, 9] : List Token) ≠ [] ∧
    (toyEngine (toyConfig scriptNewline fun _ => false)).llama_memory_clear [9, 9] 1
      = (toyEngine (toyConfig scriptNewline fun _ => false)).llama_memory_clear [] 1 ∧
    (nativeGenerate (toyEngine (toyConfig scriptNewline fun _ => false)) [9, 9]
        (some (toyHandle 512)) "x" 50).ret
      = (nativeGenerate (toyEngine (toyConfig scriptNewline fun _ => false)) []
        (some (toyHandle 512)) "x" 50).ret :=
  ⟨by decide, rfl,
    (result_independent_of_cache (toyEngine (toyConfig scriptNewline fun _ => false))
      [9, 9] [] (toyHandle 512) 1 "x" 50 rfl rfl).1⟩

/-! ## C9: the failure paths of nativeInit -/

/-- C9, counterexample: with an engine whose model load fails, `nativeInit`
returns the 0 handle after the calls `llama_backend_init` and
`llama_model_load_from_file` only; from resources without engine
initialization it leaves the engine initialized, not as before the call. -/
theorem init_failure_counterexample :
    (nativeInit (toyEngine toyNoModel) [] "model.gguf" 512).handle = none ∧
    (nativeInit (toyEngine toyNoModel) [] "model.gguf" 512).trace
      = [Call.backend_init,
         Call.model_load_from_file "model.gguf" { n_gpu_layers := 0, use_mmap := true } none] ∧
    Resources.replay { backend := false, models := [], contexts := [] }
      (nativeInit (toyEngine toyNoModel) [] "model.gguf" 512).trace
      = { backend := true, models := [], contexts := [] } := by
  decide

/-- C9, amended: `nativeInit` returns the 0 handle exactly when the model load,
the vocabulary lookup or the context creation failed; then the model loaded
during the call, if any, has been freed before the return and no context was
created, while the process-wide engine initialization is not torn down: the
resources after the call are those before it with the engine initialized. -/
theorem init_failure_frees_model (eng : Engine σ) (s : σ) (modelPath : String)
    (contextSize : Int) :
    (acquisitionFailed (nativeInit eng s modelPath contextSize).trace = true ↔
      (nativeInit eng s modelPath contextSize).handle = none) ∧
    ((nativeInit eng s modelPath contextSize).handle = none →
      (∀ r : Resources, Resources.replay r (nativeInit eng s modelPath contextSize).trace
        = { r with backend := true }) ∧
      Call.backend_free ∉ (nativeInit eng s modelPath contextSize).trace) := by
  cases h1 : (eng.llama_model_load_from_file (eng.llama_backend_init s) modelPath
      { n_gpu_layers := 0, use_mmap := true }).2 with
  | none =>
    simp [nativeInit, h1, acquisitionFailed, Resources.replay, Resources.step]
  | some model =>
    cases h2 : eng.llama_model_get_vocab (eng.llama_model_load_from_file
        (eng.llama_backend_init s) modelPath { n_gpu_layers := 0, use_mmap := true }).1 model with
    | none =>
      simp [nativeInit, h1, h2, acquisitionFailed, Resources.replay, Resources.step]
    | some vocab =>
      cases h3 : (eng.llama_new_context_with_model (eng.llama_model_load_from_file
          (eng.llama_backend_init s) modelPath { n_gpu_layers := 0, use_mmap := true }).1 model
          { n_ctx := contextSize, n_batch := contextSize, n_ubatch := contextSize,
            n_threads := 4, n_threads_batch := 4 }).2 with
      | none =>
        simp [nativeInit, h1, h2, h3, acquisitionFailed, Resources.replay, Resources.step]
      | some ctx =>
        simp [nativeInit, h1, h2, h3, acquisitionFailed]

/-- C9, amended, at a concrete run: the model loads, the vocabulary lookup
fails; the model is freed and the engine stays initialized. -/
theorem init_failure_frees_model_witness :
    (nativeInit (toyEngine toyNoVocab) [] "model.gguf" 512).handle = none ∧
    Resources.replay { backend := false, models := [], contexts := [] }
      (nativeInit (toyEngine toyNoVocab) [] "model.gguf" 512).trace
      = { backend := true, models := [], contexts := [] } :=
  have hnone : (nativeInit (toyEngine toyNoVocab) [] "model.gguf" 512).handle = none := by
    decide
  ⟨hnone, ((init_failure_frees_model _ _ _ _).2 hnone).1 _⟩

/-! ## C10: nativeRelease with the null handle -/

/-- C10, counterexample: `nativeRelease` with the null handle calls
`llama_backend_free`; from resources with the engine initialized it leaves
the engine torn down. -/
theorem release_null_counterexample :
    (nativeRelease (toyEngine (toyConfig scriptEog fun _ => false)) [] none).trace
      = [Call.backend_free] ∧
    Resources.replay { backend := true, models := [], contexts := [] }
      (nativeRelease (toyEngine (toyConfig scriptEog fun _ => false)) [] none).trace
      = { backend := false, models := [], contexts := [] } := by
  decide

/-- C10, amended: `nativeRelease` with the null handle frees no decode context
and no model; its one engine call is `llama_backend_free`, the teardown of the
process-wide engine initialization, and the models and contexts are as
before. -/
theorem release_null_frees_backend_only (eng : Engine σ) (s : σ) :
    (nativeRelease eng s none).trace = [Call.backend_free] ∧
    (nativeRelease eng s none).state = eng.llama_backend_free s ∧
    ∀ r : Resources, Resources.replay r (nativeRelease eng s none).trace
      = { r with backend := false } := by
  refine ⟨rfl, rfl, ?_⟩
  intro r
  rfl

end LlamaJni
